import Mathlib

/-!
# Verification of the meru-node-sdk HTTP transport and security-validation core

A shallow embedding of the core of the `@meruhook/node-sdk` TypeScript
repository: the security validators (`src/security/input-validator.ts`,
`src/security/url-validator.ts`, `src/security/constants.ts`) and the HTTP
client with its retry/backoff engine (`src/client/http-client.ts`).

Modelling conventions:
* JavaScript strings are modelled as Lean `String`s; string operations
  (`toLowerCase`, `startsWith`, `includes`, `trim`, `parseInt`, regex tests)
  are defined below over `String.data`, the underlying character list.
  `jsLength` counts characters (JS counts UTF-16 units; the difference only
  matters for astral-plane characters, which no property here depends on).
* Platform primitives that are not part of the repository (`new URL`,
  `JSON.parse`, `decodeURIComponent`, `fetch`) are passed in as explicit
  function parameters (`parse`, `decode`) or as an input value
  (`FetchResult`); the repository code is embedded faithfully around them.
* Exceptions are modelled with `Except`; the closed exception taxonomy of the
  SDK (`MeruException` and its three subclasses) becomes the inductive type
  `MeruError`.
* JS `number` configuration values are modelled as `Int` (counters, sizes,
  timeouts) and `ℚ` (delays and multipliers, which may be fractional).
-/

namespace Meru

/-! ## JavaScript string primitives (modelled over `String.data`) -/

/-- Character count of a string (JS `.length`). -/
def jsLength (s : String) : Nat := s.data.length

/-- JS `String.prototype.toLowerCase`, restricted to simple case folding. -/
def jsToLower (s : String) : String := ⟨s.data.map Char.toLower⟩

/-- JS `String.prototype.startsWith`. -/
def jsStartsWith (s p : String) : Bool := p.data.isPrefixOf s.data

/-- JS `String.prototype.endsWith`. -/
def jsEndsWith (s p : String) : Bool := p.data.isSuffixOf s.data

/-- Contiguous-substring test on character lists. -/
def listInfix : List Char → List Char → Bool
  | needle, [] => needle.isEmpty
  | needle, x :: xs => needle.isPrefixOf (x :: xs) || listInfix needle xs

/-- JS `String.prototype.includes`. -/
def jsIncludes (s sub : String) : Bool := listInfix sub.data s.data

/-- Whether the string contains the given character. -/
def jsContainsChar (s : String) (c : Char) : Bool := s.data.contains c

/-- JS `String.prototype.slice(0, -1)`: drop the last character. -/
def jsDropLast (s : String) : String := ⟨s.data.dropLast⟩

/-- The whitespace class trimmed by JS `String.prototype.trim`. -/
def isJsWhitespace (c : Char) : Bool :=
  c.toNat == 9 || c.toNat == 10 || c.toNat == 11 || c.toNat == 12 ||
  c.toNat == 13 || c.toNat == 32 || c.toNat == 160 || c.toNat == 0x1680 ||
  (0x2000 ≤ c.toNat && c.toNat ≤ 0x200a) || c.toNat == 0x2028 ||
  c.toNat == 0x2029 || c.toNat == 0x202f || c.toNat == 0x205f ||
  c.toNat == 0x3000 || c.toNat == 0xfeff

/-- JS `String.prototype.trim`. -/
def jsTrim (s : String) : String :=
  ⟨((s.data.dropWhile isJsWhitespace).reverse.dropWhile isJsWhitespace).reverse⟩

/-- Decimal digit prefix used by `parseInt`. -/
def takeDigits (l : List Char) : List Char := l.takeWhile Char.isDigit

/-- Value of a list of decimal digit characters. -/
def digitsToNat (l : List Char) : Nat :=
  l.foldl (fun a c => a * 10 + (c.toNat - 48)) 0

/-- JS `parseInt(s, 10)`. `none` models the `NaN` result (no usable digits);
JS stores `NaN` in a `number`, but everywhere the embedded code uses the
result it is either truthiness-tested (where `NaN` behaves like absence) or
compared (where comparisons with `NaN` are false), so `Option Int` with
`none` for `NaN` is observationally equivalent in this code base. -/
def jsParseInt (s : String) : Option Int :=
  let l := s.data.dropWhile isJsWhitespace
  match l with
  | [] => none
  | c :: rest =>
    if c == '-' then
      match takeDigits rest with
      | [] => none
      | ds => some (-(digitsToNat ds : Int))
    else if c == '+' then
      match takeDigits rest with
      | [] => none
      | ds => some ((digitsToNat ds : Int))
    else
      match takeDigits (c :: rest) with
      | [] => none
      | ds => some ((digitsToNat ds : Int))

/-- Split a character list on a separator character; always returns at least
one (possibly empty) segment, like JS `String.prototype.split`. -/
def splitOnChar (sep : Char) : List Char → List (List Char)
  | [] => [[]]
  | x :: xs =>
    let r := splitOnChar sep xs
    if x == sep then [] :: r
    else
      match r with
      | [] => [[x]]
      | seg :: rest => (x :: seg) :: rest

/-! ## `src/security/constants.ts` -/

/-- `SECURITY_LIMITS.MAX_RESPONSE_SIZE` (10 MiB). -/
def MAX_RESPONSE_SIZE : Nat := 10 * 1024 * 1024

/-- `SECURITY_LIMITS.MAX_JSON_DEPTH`. -/
def MAX_JSON_DEPTH : Nat := 100

/-- `SECURITY_LIMITS.MAX_URL_LENGTH`. -/
def MAX_URL_LENGTH : Nat := 2048

/-- `SECURITY_LIMITS.MAX_HEADER_VALUE_LENGTH`. -/
def MAX_HEADER_VALUE_LENGTH : Nat := 8192

/-- `SECURITY_LIMITS.MAX_WEBHOOK_URL_LENGTH`. -/
def MAX_WEBHOOK_URL_LENGTH : Nat := 2048

/-- `SECURITY_LIMITS.MIN_REQUEST_TIMEOUT` (ms). -/
def MIN_REQUEST_TIMEOUT : Int := 1000

/-- `SECURITY_LIMITS.MAX_REQUEST_TIMEOUT` (ms). -/
def MAX_REQUEST_TIMEOUT : Int := 60000

/-- `BLOCKED_HOSTNAMES` from `constants.ts`, in source order. -/
def BLOCKED_HOSTNAMES : List String :=
  ["localhost", "127.0.0.1", "0.0.0.0", "::1", "169.254.169.254",
   "10.0.0.0/8", "172.16.0.0/12", "192.168.0.0/16"]

/-- `RATE_LIMIT_DEFAULTS.MAX_RETRY_AFTER` (seconds). -/
def MAX_RETRY_AFTER : Int := 300

/-- `RATE_LIMIT_DEFAULTS.MAX_DELAY` (ms). -/
def RATE_LIMIT_MAX_DELAY : ℚ := 30000

/-! ## `ValidationResult` and header validation (`input-validator.ts`) -/

/-- `ValidationResult` from `input-validator.ts`. -/
structure ValidationResult where
  isValid : Bool
  errors : List String
  deriving DecidableEq, Repr

/-- `HEADER_INJECTION_PATTERNS[0]`: the regex `[\r\n]`. -/
def matchesCrLf (s : String) : Bool :=
  s.data.any (fun c => c == '\r' || c == '\n')

/-- `HEADER_INJECTION_PATTERNS[1]`: the regex `\x00`. -/
def matchesNul (s : String) : Bool :=
  s.data.any (fun c => c.toNat == 0)

/-- `HEADER_INJECTION_PATTERNS[2]`: the regex `[\x01-\x1f\x7f]`. -/
def matchesCtl (s : String) : Bool :=
  s.data.any (fun c => (1 ≤ c.toNat && c.toNat ≤ 31) || c.toNat == 127)

/-- `InputValidator.validateHeaderValue`. The source loop over
`HEADER_INJECTION_PATTERNS` breaks after the first matching pattern, so at
most one pattern error is produced. Non-string values are outside the model
(the TS signature already requires a string). -/
def validateHeaderValue (value : String) (fieldName : String) : ValidationResult :=
  let lenErrors :=
    if MAX_HEADER_VALUE_LENGTH < jsLength value then
      [fieldName ++ " header exceeds maximum length of " ++
        toString MAX_HEADER_VALUE_LENGTH]
    else []
  let patternErrors :=
    if matchesCrLf value || matchesNul value || matchesCtl value then
      [fieldName ++ " header contains invalid characters"]
    else []
  let errors := lenErrors ++ patternErrors
  ⟨errors.isEmpty, errors⟩

/-- `InputValidator.validateTimeout`. The `typeof`/`isNaN` guard of the
source is outside the model: the argument is already an integer here. -/
def validateTimeout (timeout : Int) : ValidationResult :=
  let lowErrors :=
    if timeout < MIN_REQUEST_TIMEOUT then
      ["Timeout must be at least " ++ toString MIN_REQUEST_TIMEOUT ++ "ms"]
    else []
  let highErrors :=
    if MAX_REQUEST_TIMEOUT < timeout then
      ["Timeout cannot exceed " ++ toString MAX_REQUEST_TIMEOUT ++ "ms"]
    else []
  let errors := lowErrors ++ highErrors
  ⟨errors.isEmpty, errors⟩

/-- The character class removed by `sanitizeString`: the regex
`[\x00-\x1f\x7f]` (all ASCII control characters). -/
def isCtlChar (c : Char) : Bool := c.toNat ≤ 31 || c.toNat == 127

/-- `InputValidator.sanitizeString`: strip control characters, trim, and
truncate to `maxLength` when that argument is present and truthy (JS `0` is
falsy, hence the explicit `m != 0` test). -/
def sanitizeString (input : String) (maxLength : Option Nat) : String :=
  let stripped : String := ⟨input.data.filter (fun c => !isCtlChar c)⟩
  let trimmed := jsTrim stripped
  match maxLength with
  | some m =>
    if m != 0 && m < jsLength trimmed then ⟨trimmed.data.take m⟩ else trimmed
  | none => trimmed

/-! ## JSON values and `validateJsonString` (`input-validator.ts`) -/

/-- Parsed JSON values, the result type of the platform `JSON.parse`. -/
inductive Json where
  | null : Json
  | bool (b : Bool) : Json
  | num (q : ℚ) : Json
  | str (s : String) : Json
  | arr (items : List Json) : Json
  | obj (fields : List (String × Json)) : Json
  deriving Repr

mutual

/-- `InputValidator.getObjectDepth`: depth of a parsed JSON value, with the
short-circuit of the source once `depth` exceeds `MAX_JSON_DEPTH` (primitives and
`null` contribute no depth; each array/object level adds one). -/
def getObjectDepth (j : Json) (depth : Nat) : Nat :=
  if MAX_JSON_DEPTH < depth then depth
  else
    match j with
    | .null => depth
    | .bool _ => depth
    | .num _ => depth
    | .str _ => depth
    | .arr items => arrayMaxDepth items depth depth
    | .obj fields => objectMaxDepth fields depth depth

/-- The `for`-loop of `getObjectDepth` over an array: fold of
`max` over the item depths at `depth + 1`, starting from `depth`. -/
def arrayMaxDepth (items : List Json) (depth acc : Nat) : Nat :=
  match items with
  | [] => acc
  | item :: rest => arrayMaxDepth rest depth (max acc (getObjectDepth item (depth + 1)))

/-- The `for`-loop of `getObjectDepth` over `Object.values` of an object. -/
def objectMaxDepth (fields : List (String × Json)) (depth acc : Nat) : Nat :=
  match fields with
  | [] => acc
  | f :: rest => objectMaxDepth rest depth (max acc (getObjectDepth f.2 (depth + 1)))

end

/-- `InputValidator.validateJsonString`. The platform `JSON.parse` is not
repository code, so the function is embedded over the character count of the input
`len` and the platform parse result `parsed` (`none` models a parse error);
errors accumulate in source order (size first, then depth or parse error). -/
def validateJsonString (len : Nat) (parsed : Option Json) : ValidationResult :=
  let sizeErrors :=
    if MAX_RESPONSE_SIZE < len then
      ["JSON string exceeds maximum size of " ++ toString MAX_RESPONSE_SIZE ++ " bytes"]
    else []
  let parseErrors :=
    match parsed with
    | some j =>
      if MAX_JSON_DEPTH < getObjectDepth j 0 then
        ["JSON depth exceeds maximum of " ++ toString MAX_JSON_DEPTH]
      else []
    | none => ["Invalid JSON format"]
  let errors := sizeErrors ++ parseErrors
  ⟨errors.isEmpty, errors⟩

/-! ## SSRF hostname policy (`input-validator.ts` and `url-validator.ts`) -/

/-- `UrlValidator.isPrivateNetwork` (and the identical inline checks of
`InputValidator.isBlockedHostname`): the regexes `^10\.`,
`^172\.(1[6-9]|2\d|3[01])\.` and `^192\.168\.`. The middle regex matches
exactly the prefixes `172.16.` … `172.31.`, enumerated here. -/
def isPrivateNetwork (hostname : String) : Bool :=
  jsStartsWith hostname ("10.") ||
  (List.range' 16 16).any (fun n => jsStartsWith hostname ("172." ++ Nat.repr n ++ ".")) ||
  jsStartsWith hostname ("192.168.")

/-- `UrlValidator.isLoopback`. -/
def isLoopback (hostname : String) : Bool :=
  hostname == "localhost" || hostname == "127.0.0.1" ||
  hostname == "::1" || hostname == "0.0.0.0"

/-- `UrlValidator.isMetadataService`. -/
def isMetadataService (hostname : String) : Bool :=
  hostname == "169.254.169.254" || hostname == "100.100.100.200" ||
  hostname == "metadata.google.internal" ||
  jsEndsWith hostname (".metadata.internal")

/-- `InputValidator.isBlockedHostname`: exact matches against
`BLOCKED_HOSTNAMES`, a prefix check on the base part of CIDR-style entries
(`blocked.split('/')[0]`), and the private-range regexes. -/
def isBlockedHostname (hostname : String) : Bool :=
  let normalized := jsToLower hostname
  BLOCKED_HOSTNAMES.any (fun blocked =>
    if jsContainsChar blocked '/' then
      jsStartsWith normalized ⟨blocked.data.takeWhile (fun c => c != '/')⟩
    else normalized == blocked) ||
  isPrivateNetwork normalized

/-- Lower-case ASCII letter or digit, the class `[a-z0-9]`. -/
def isLowerAlnum (c : Char) : Bool :=
  (97 ≤ c.toNat && c.toNat ≤ 122) || c.isDigit

/-- One label of the domain-name regex of `UrlValidator.isValidDomainName`:
`[a-z0-9]([a-z0-9-]*[a-z0-9])?`. -/
def domainLabelOk (l : List Char) : Bool :=
  !l.isEmpty &&
  l.all (fun c => isLowerAlnum c || c == '-') &&
  (match l.head? with | some c => isLowerAlnum c | none => false) &&
  (match l.getLast? with | some c => isLowerAlnum c | none => false)

/-- `UrlValidator.isValidDomainName`: the domain regex (dot-separated labels)
plus the 253-character bound. -/
def isValidDomainName (hostname : String) : Bool :=
  (splitOnChar '.' hostname.data).all domainLabelOk && jsLength hostname ≤ 253

/-- Hexadecimal digit, case-insensitive (`[0-9a-f]` with the `i` flag). -/
def isHexDigit (c : Char) : Bool :=
  c.isDigit || (97 ≤ c.toNat && c.toNat ≤ 102) || (65 ≤ c.toNat && c.toNat ≤ 70)

/-- `UrlValidator.isValidIPAddress`: the IPv4 regex `^(\d{1,3}\.){3}\d{1,3}$`
with the per-octet `parseInt` bound, else the simplified full-form IPv6
regex `^([0-9a-f]{1,4}:){7}[0-9a-f]{1,4}$`. -/
def isValidIPAddress (hostname : String) : Bool :=
  let parts := splitOnChar '.' hostname.data
  if parts.length == 4 &&
      parts.all (fun p => decide (1 ≤ p.length) && decide (p.length ≤ 3) && p.all Char.isDigit) then
    parts.all (fun p => digitsToNat p ≤ 255)
  else
    let segs := splitOnChar ':' hostname.data
    segs.length == 8 &&
      segs.all (fun p => decide (1 ≤ p.length) && decide (p.length ≤ 4) && p.all isHexDigit)

/-- `UrlValidator.validateHostname`: exact blocklist match (the source loop
breaks after the first hit, so one error at most), then — unless private
networks are allowed — the private/loopback/metadata checks, then the
domain-name / IP-address format check. -/
def validateHostname (hostname : String) (fieldName : String)
    (allowPrivateNetworks : Bool) : ValidationResult :=
  if hostname == "" then ⟨false, [fieldName ++ " is required"]⟩
  else
    let normalized := jsToLower hostname
    let blockedErrors :=
      if BLOCKED_HOSTNAMES.any (fun b => normalized == b) then
        [fieldName ++ " " ++ hostname ++ " is not allowed for security reasons"]
      else []
    let privateErrors :=
      if allowPrivateNetworks then []
      else
        (if isPrivateNetwork normalized then
          [fieldName ++ " " ++ hostname ++ " points to a private network which is not allowed"]
        else []) ++
        (if isLoopback normalized then
          [fieldName ++ " " ++ hostname ++ " points to localhost which is not allowed"]
        else []) ++
        (if isMetadataService normalized then
          [fieldName ++ " " ++ hostname ++ " points to a metadata service which is not allowed"]
        else [])
    let formatErrors :=
      if !isValidDomainName normalized && !isValidIPAddress normalized then
        [fieldName ++ " " ++ hostname ++ " is not a valid domain name or IP address"]
      else []
    let errors := blockedErrors ++ privateErrors ++ formatErrors
    ⟨errors.isEmpty, errors⟩

/-! ## URL validation (`url-validator.ts`, `input-validator.ts`) -/

/-- The components of a parsed URL that the validators consume: the result
type of the platform `new URL(...)`. As in the WHATWG URL API, `protocol`
carries its trailing colon. -/
structure ParsedUrl where
  protocol : String
  hostname : String
  pathname : String
  search : String
  deriving DecidableEq, Repr

/-- `ALLOWED_URL_SCHEMES` / `ALLOWED_URL_SCHEMES_DEV` selection. -/
def allowedSchemes (allowHttp : Bool) : List String :=
  if allowHttp then ["https", "http"] else ["https"]

/-- The shortener-domain list of `UrlValidator.checkSuspiciousPatterns`. -/
def shortenerDomains : List String :=
  ["bit.ly", "tinyurl.com", "t.co", "goo.gl", "ow.ly",
   "short.link", "tiny.cc", "is.gd", "buff.ly"]

/-- The regex `%[0-9a-f]{2}` (case-insensitive) on a character list. -/
def percentHexAux : List Char → Bool
  | p :: a :: b :: rest =>
    (p == '%' && isHexDigit a && isHexDigit b) || percentHexAux (a :: b :: rest)
  | _ => false

/-- Whether the string contains a percent-escape, `/%[0-9a-f]{2}/gi.test`. -/
def hasPercentHex (s : String) : Bool := percentHexAux s.data

/-- The query-string checks shared by both arms of the double-encoding branch
of `checkSuspiciousPatterns`: over-long query, then suspicious protocol
handlers in the query string. -/
def suspiciousQueryErrors (pu : ParsedUrl) (fieldName : String) : List String :=
  (if 2048 < jsLength pu.search then
    [fieldName ++ " has an unusually long query string"]
  else []) ++
  (let q := jsToLower pu.search
   if jsIncludes q ("javascript:") || jsIncludes q ("data:") || jsIncludes q ("file:") then
    [fieldName ++ " contains suspicious protocol handlers in query parameters"]
  else [])

/-- `UrlValidator.checkSuspiciousPatterns`. `parse` models `new URL` (the
whole body is inside a `try` whose `catch` returns the errors pushed so far,
so a parse failure yields no errors) and `decode` models
`decodeURIComponent` (`none` = `URIError` thrown, which the `catch` swallows,
keeping only the errors already pushed). -/
def checkSuspiciousPatterns (parse : String → Option ParsedUrl)
    (decode : String → Option String) (url : String) (fieldName : String) : List String :=
  match parse url with
  | none => []
  | some pu =>
    let shortenerErrors :=
      if shortenerDomains.any (fun d => jsEndsWith pu.hostname d) then
        [fieldName ++ " uses a URL shortener which is not allowed for security reasons"]
      else []
    if jsContainsChar url '%' && hasPercentHex url then
      match decode url with
      | none => shortenerErrors
      | some decoded =>
        let doubleEncodeErrors :=
          if decoded != url && hasPercentHex decoded then
            [fieldName ++ " appears to use double URL encoding which is suspicious"]
          else []
        shortenerErrors ++ doubleEncodeErrors ++ suspiciousQueryErrors pu fieldName
    else shortenerErrors ++ suspiciousQueryErrors pu fieldName

/-- Options of `UrlValidator.validateUrl`, with the source defaults. -/
structure UrlValidationOptions where
  allowHttp : Bool := false
  allowPrivateNetworks : Bool := false
  maxLength : Nat := MAX_URL_LENGTH
  requirePath : Bool := false
  deriving DecidableEq, Repr

/-- `UrlValidator.validateUrl`: empty/length checks, platform URL parse,
scheme check, hostname security checks, optional path requirement, and the
suspicious-pattern heuristics, with errors accumulated in source order. -/
def validateUrl (parse : String → Option ParsedUrl) (decode : String → Option String)
    (url : String) (fieldName : String) (options : UrlValidationOptions) : ValidationResult :=
  if url == "" then ⟨false, [fieldName ++ " must be a non-empty string"]⟩
  else
    let lengthErrors :=
      if options.maxLength < jsLength url then
        [fieldName ++ " exceeds maximum length of " ++ toString options.maxLength ++ " characters"]
      else []
    match parse url with
    | none => ⟨false, lengthErrors ++ [fieldName ++ " is not a valid URL format"]⟩
    | some pu =>
      let scheme := jsDropLast pu.protocol
      let schemeErrors :=
        if (allowedSchemes options.allowHttp).contains scheme then []
        else
          [fieldName ++ " must use " ++
            String.intercalate (" or ") (allowedSchemes options.allowHttp) ++ " protocol"]
      let hostnameErrors :=
        (validateHostname pu.hostname (fieldName ++ " hostname")
          options.allowPrivateNetworks).errors
      let pathErrors :=
        if options.requirePath && (pu.pathname == "" || pu.pathname == "/") then
          [fieldName ++ " must include a path"]
        else []
      let suspiciousErrors := checkSuspiciousPatterns parse decode url fieldName
      let errors := lengthErrors ++ schemeErrors ++ hostnameErrors ++ pathErrors ++ suspiciousErrors
      ⟨errors.isEmpty, errors⟩

/-- Options of `InputValidator.validateWebhookUrl`, with source defaults. -/
structure WebhookUrlOptions where
  allowHttp : Bool := false
  required : Bool := true
  deriving DecidableEq, Repr

/-- `InputValidator.validateWebhookUrl`: missing-value handling, length
check, platform URL parse, scheme check, and the `isBlockedHostname` SSRF
check. -/
def validateWebhookUrl (parse : String → Option ParsedUrl) (url : String)
    (options : WebhookUrlOptions) : ValidationResult :=
  if url == "" then
    ⟨!options.required, if options.required then ["Webhook URL is required"] else []⟩
  else
    let lengthErrors :=
      if MAX_WEBHOOK_URL_LENGTH < jsLength url then
        ["Webhook URL exceeds maximum length of " ++ toString MAX_WEBHOOK_URL_LENGTH]
      else []
    match parse url with
    | none => ⟨false, lengthErrors ++ ["Webhook URL is not a valid URL"]⟩
    | some pu =>
      let schemeErrors :=
        if (allowedSchemes options.allowHttp).contains (jsDropLast pu.protocol) then []
        else
          ["Webhook URL must use " ++
            String.intercalate (" or ") (allowedSchemes options.allowHttp) ++ " protocol"]
      let hostnameErrors :=
        if isBlockedHostname pu.hostname then
          ["Webhook URL hostname is not allowed for security reasons"]
        else []
      let errors := lengthErrors ++ schemeErrors ++ hostnameErrors
      ⟨errors.isEmpty, errors⟩

/-! ## Header construction (`http-client.ts`, `buildHeaders`) -/

/-- Assignment into a JS object modelled as an association list: replace the
value at an existing key (keeping its position, as JS objects do) or append
a new entry. JS object keys are case-sensitive. -/
def upsert : List (String × String) → String → String → List (String × String)
  | [], k, v => [(k, v)]
  | (k0, v0) :: t, k, v =>
    if k0 == k then (k, v) :: t else (k0, v0) :: upsert t k v

/-- First-match association lookup (JS object property read). -/
def assocLookup : List (String × String) → String → Option String
  | [], _ => none
  | (k, v) :: t, key => if k == key then some v else assocLookup t key

/-- The fixed headers `buildHeaders` starts from, in source order. -/
def baseHeaders (apiToken : String) : List (String × String) :=
  [("Accept", "application/json"),
   ("Content-Type", "application/json"),
   ("Authorization", "Bearer " ++ apiToken),
   ("User-Agent", "@meruhook/node-sdk/1.0.0")]

/-- The protected header names of `buildHeaders`, compared lower-cased. -/
def criticalHeaderNames : List String := ["authorization", "user-agent", "host"]

/-- The loop of `buildHeaders` over the caller-supplied headers: skip (and
log) empty names, throw `ValidationException` on a value failing
`validateHeaderValue`, skip (and log) protected names, otherwise assign the
`sanitizeString`-cleaned value. The thrown exception is the `Except.error`
case, carrying the exception message. -/
def buildHeadersGo (headers : List (String × String)) :
    List (String × String) → Except String (List (String × String))
  | [] => .ok headers
  | (key, value) :: rest =>
    if key == "" then buildHeadersGo headers rest
    else
      let validation := validateHeaderValue value key
      if !validation.isValid then
        .error ("Invalid header value for " ++ key ++ ": " ++
          String.intercalate (", ") validation.errors)
      else if criticalHeaderNames.contains (jsToLower key) then
        buildHeadersGo headers rest
      else
        buildHeadersGo
          (upsert headers key (sanitizeString value (some MAX_HEADER_VALUE_LENGTH))) rest

/-- `HttpClient.buildHeaders`. -/
def buildHeaders (apiToken : String) (customHeaders : List (String × String)) :
    Except String (List (String × String)) :=
  buildHeadersGo (baseHeaders apiToken) customHeaders

/-! ## Error taxonomy (`src/exceptions`) and responses -/

/-- The `data` field of an `ApiResponse`: parsed JSON for JSON responses,
raw text otherwise, and `nullData` for an empty JSON body. -/
inductive JsonData where
  | json (j : Json) : JsonData
  | text (s : String) : JsonData
  | nullData : JsonData
  deriving Repr

/-- `ApiResponse` from `types/client.ts`: status, status text, headers with
lower-cased keys, and the processed body. -/
structure ApiResp where
  data : JsonData
  status : Int
  statusText : String
  headers : List (String × String)
  deriving Repr

/-- The closed exception taxonomy: `MeruException` (generic, also used for
network, timeout, size-limit and malformed-JSON failures) and its subclasses
`AuthenticationException`, `ValidationException`, `RateLimitException`.
Each carries its message and the attached response, when any; the rate-limit
variant additionally carries the parsed `Retry-After` seconds
(`none` = header absent or `NaN`). -/
inductive MeruError where
  | meru (message : String) (response : Option ApiResp) : MeruError
  | authentication (message : String) (response : Option ApiResp) : MeruError
  | validation (message : String) (response : Option ApiResp) : MeruError
  | rateLimit (message : String) (response : Option ApiResp)
      (retryAfter : Option Int) : MeruError
  deriving Repr

/-- `response.data?.message`: the `message` field of the parsed JSON error
body, when the body is a JSON object with a string `message`. -/
def dataMessage (d : JsonData) : Option String :=
  match d with
  | .json (.obj fields) =>
    match fields.lookup ("message") with
    | some (.str s) => some s
    | _ => none
  | _ => none

/-- `RateLimitException.fromResponse`: read the lower-cased `retry-after`
header; an absent or empty (falsy) header yields `undefined`, otherwise
`parseInt` (with `none` for `NaN`, see `jsParseInt`). -/
def parseRetryAfter (resp : ApiResp) : Option Int :=
  match assocLookup resp.headers ("retry-after") with
  | some s => if s == "" then none else jsParseInt s
  | none => none

/-- `HttpClient.handleHttpError`: classify a non-2xx response by status,
building the exception via the corresponding `fromResponse`. -/
def handleHttpError (resp : ApiResp) : MeruError :=
  if resp.status == 401 then
    .authentication ((dataMessage resp.data).getD ("Authentication failed")) (some resp)
  else if resp.status == 422 then
    .validation ((dataMessage resp.data).getD ("Validation failed")) (some resp)
  else if resp.status == 429 then
    .rateLimit ((dataMessage resp.data).getD ("Rate limit exceeded")) (some resp)
      (parseRetryAfter resp)
  else
    .meru ((dataMessage resp.data).getD ("An error occurred")) (some resp)

/-! ## One transport attempt (`http-client.ts`, `makeRequest`) -/

/-- What the platform `fetch` produced for one attempt: a response, a
`TypeError` (network error), or an `AbortError` (timeout). The body is
modelled by its streamed chunk sizes plus the decoded text obtained when the
stream is fully read. -/
structure FetchResponse where
  status : Int
  statusText : String
  headers : List (String × String)
  bodyChunks : List Nat
  bodyText : String
  deriving Repr

/-- Outcome of one `fetch` call. -/
inductive FetchResult where
  | response (r : FetchResponse) : FetchResult
  | networkError : FetchResult
  | timedOut : FetchResult
  deriving Repr

/-- Case-insensitive header read, the platform `Headers.get`. -/
def headerGetCI (headers : List (String × String)) (name : String) : Option String :=
  match headers.find? (fun kv => jsToLower kv.1 == name) with
  | some kv => some kv.2
  | none => none

/-- The `response.headers.forEach` loop: collect headers with lower-cased
keys. -/
def lowerHeaders (headers : List (String × String)) : List (String × String) :=
  headers.foldl (fun acc kv => upsert acc (jsToLower kv.1) kv.2) []

/-- The declared-size guard of `makeRequest`: a present, non-empty (truthy)
`content-length` header whose `parseInt` value exceeds the cap. A `NaN`
parse compares false. -/
def declaredTooLarge (maxResponseSize : Int) (r : FetchResponse) : Bool :=
  match headerGetCI r.headers ("content-length") with
  | some s =>
    if s == "" then false
    else
      match jsParseInt s with
      | some v => maxResponseSize < v
      | none => false
  | none => false

/-- The loop of `readResponseWithSizeLimit`: accumulate chunk sizes, failing
the moment the running total exceeds the cap. `true` = fully read. -/
def readLoop (maxResponseSize : Int) : List Nat → Int → Bool
  | [], _ => true
  | c :: rest, total =>
    let t := total + (c : Int)
    if maxResponseSize < t then false else readLoop maxResponseSize rest t

/-- Whether the whole body can be streamed within the cap
(`readResponseWithSizeLimit` succeeds). -/
def readWithinLimit (maxResponseSize : Int) (r : FetchResponse) : Bool :=
  readLoop maxResponseSize r.bodyChunks 0

/-- Whether the response declares a JSON content type
(`contentType?.includes(...)` with the `application/json` literal; an absent header is falsy). -/
def isJsonResponse (r : FetchResponse) : Bool :=
  match headerGetCI r.headers ("content-type") with
  | some ct => jsIncludes ct ("application/json")
  | none => false

/-- `HttpClient.makeRequest`, embedded over the platform `fetch` outcome and
the platform JSON parser `parse`: declared-size guard, header lowering,
bounded body read, JSON validation (`validateJsonString`) before parsing,
then HTTP status classification via `handleHttpError`. -/
def makeRequest (parse : String → Option Json) (timeoutMs maxResponseSize : Int)
    (fr : FetchResult) : Except MeruError ApiResp :=
  match fr with
  | .networkError => .error (.meru ("Network error occurred") none)
  | .timedOut =>
    .error (.meru ("Request timeout after " ++ toString timeoutMs ++ "ms") none)
  | .response r =>
    if declaredTooLarge maxResponseSize r then
      .error (.meru ("Response size " ++ (headerGetCI r.headers ("content-length")).getD ("")
        ++ " exceeds maximum allowed size of " ++ toString maxResponseSize ++ " bytes") none)
    else
      let responseHeaders := lowerHeaders r.headers
      if !readWithinLimit maxResponseSize r then
        .error (.meru ("Response size exceeds maximum allowed size of "
          ++ toString maxResponseSize ++ " bytes") none)
      else
        let processed : Except MeruError JsonData :=
          if isJsonResponse r then
            if r.bodyText == "" then .ok .nullData
            else
              let jsonValidation :=
                validateJsonString (jsLength r.bodyText) (parse r.bodyText)
              if jsonValidation.isValid then
                match parse r.bodyText with
                | some j => .ok (.json j)
                | none => .ok .nullData
              else
                .error (.meru ("Invalid JSON response: " ++
                  String.intercalate (", ") jsonValidation.errors) none)
          else .ok (.text r.bodyText)
        match processed with
        | .error e => .error e
        | .ok d =>
          let api : ApiResp := ⟨d, r.status, r.statusText, responseHeaders⟩
          if 200 ≤ r.status && r.status ≤ 299 then .ok api
          else .error (handleHttpError api)

/-! ## Retry configuration and the retry loop (`http-client.ts`, `request`) -/

/-- The resolved `retryConfig` of `HttpClient` (`Required<RetryConfig>`):
`times` retries after the first try, base `delay`, `maxDelay` cap, and the
exponential `backoffMultiplier`. -/
structure RetryConfig where
  times : Int
  delay : ℚ
  maxDelay : ℚ
  backoffMultiplier : ℚ
  deriving DecidableEq, Repr

/-- The inline backoff computation of the retry loop (lines 169-172):
`Math.min(delay * backoffMultiplier ** (attempt - 1), maxDelay)`. -/
def computeDelay (cfg : RetryConfig) (attempt : Int) : ℚ :=
  min (cfg.delay * cfg.backoffMultiplier ^ (attempt - 1).toNat) cfg.maxDelay

/-- The guard `retryAfter && retryAfter <= RATE_LIMIT_DEFAULTS.MAX_RETRY_AFTER`:
the parsed Retry-After value is truthy (present, not `NaN`, not `0`) and at
most 300 seconds. -/
def retryAfterUsable : Option Int → Bool
  | some v => v != 0 && v ≤ MAX_RETRY_AFTER
  | none => false

/-- Observable outcome of one logical `request` call: how many times the
transport was invoked, the argument of each `sleep` in order (milliseconds),
and the final result. A raised `undefined` `lastError` (reachable only when
`times < -1`, so the loop body never runs) is `Except.error none`. -/
structure RequestTrace where
  tries : Nat
  sleeps : List ℚ
  result : Except (Option MeruError) ApiResp
  deriving Repr

/-- The retry loop of `HttpClient.request`. `fuel` counts the remaining
iterations of `for (attempt = 1; attempt <= times + 1; attempt++)`, so it
starts at `(times + 1).toNat` and the invariant `attempt + fuel = times + 2`
holds throughout. Authentication and validation failures are rethrown at
once; a rate-limit failure with a usable Retry-After sleeps that many
seconds and retries while `attempt <= times`, and is rethrown otherwise;
every other failure is rethrown once `attempt > times` and otherwise sleeps
the computed backoff and retries. -/
def requestGo (cfg : RetryConfig) (transport : Int → Except MeruError ApiResp) :
    Nat → Int → Option MeruError → RequestTrace
  | 0, _, lastError => ⟨0, [], .error lastError⟩
  | fuel + 1, attempt, _ =>
    match transport attempt with
    | .ok r => ⟨1, [], .ok r⟩
    | .error e =>
      match e with
      | .authentication m resp => ⟨1, [], .error (some (.authentication m resp))⟩
      | .validation m resp => ⟨1, [], .error (some (.validation m resp))⟩
      | .rateLimit m resp retryAfter =>
        let err := MeruError.rateLimit m resp retryAfter
        if retryAfterUsable retryAfter then
          if attempt ≤ cfg.times then
            let rest := requestGo cfg transport fuel (attempt + 1) (some err)
            ⟨rest.tries + 1, ((retryAfter.getD 0 : Int) : ℚ) * 1000 :: rest.sleeps,
              rest.result⟩
          else ⟨1, [], .error (some err)⟩
        else ⟨1, [], .error (some err)⟩
      | .meru m resp =>
        let err := MeruError.meru m resp
        if cfg.times < attempt then ⟨1, [], .error (some err)⟩
        else
          let rest := requestGo cfg transport fuel (attempt + 1) (some err)
          ⟨rest.tries + 1, computeDelay cfg attempt :: rest.sleeps, rest.result⟩

/-- `HttpClient.request`: the retry loop started at attempt 1 with no
recorded failure. -/
def request (cfg : RetryConfig) (transport : Int → Except MeruError ApiResp) :
    RequestTrace :=
  requestGo cfg transport (cfg.times + 1).toNat 1 none

/-- `request` composed with `makeRequest` over a plan of per-attempt `fetch`
outcomes: the full transport pipeline of `HttpClient`. -/
def requestFetch (cfg : RetryConfig) (parse : String → Option Json)
    (timeoutMs maxResponseSize : Int) (plan : Int → FetchResult) : RequestTrace :=
  request cfg (fun attempt => makeRequest parse timeoutMs maxResponseSize (plan attempt))

/-! ## Client construction (`http-client.ts`, constructor) -/

/-- `MeruClientConfig` as consumed by the `HttpClient` constructor. Optional
fields model absent properties; `apiToken = none` models a missing (falsy)
token. -/
structure MeruClientConfig where
  apiToken : Option String := none
  baseUrl : Option String := none
  timeout : Option Int := none
  maxResponseSize : Option Int := none
  retryTimes : Option Int := none
  retryDelay : Option ℚ := none
  retryMaxDelay : Option ℚ := none
  retryBackoffMultiplier : Option ℚ := none
  deriving Repr

/-- The fields a constructed `HttpClient` holds. -/
structure HttpClientState where
  apiToken : String
  baseUrl : String
  timeout : Int
  maxResponseSize : Int
  retryConfig : RetryConfig
  deriving DecidableEq, Repr

/-- The `HttpClient` constructor: validate the API token (missing or empty
fails), validate the defaulted base URL via `UrlValidator.validateUrl` with
`allowHttp` iff `NODE_ENV` names the development environment (the `isDevEnv` parameter),
validate the defaulted timeout, then assemble the state; `maxResponseSize`
and the retry fields are taken as provided (with defaults), `maxDelay`
clamped to `RATE_LIMIT_DEFAULTS.MAX_DELAY`. -/
def constructHttpClient (parse : String → Option ParsedUrl)
    (decode : String → Option String) (isDevEnv : Bool)
    (config : MeruClientConfig) : Except String HttpClientState :=
  match config.apiToken with
  | none => .error ("API token is required and must be a string")
  | some tok =>
    if tok == "" then .error ("API token is required and must be a string")
    else
      let baseUrl := config.baseUrl.getD ("https://api.meruhook.com")
      let baseUrlValidation :=
        validateUrl parse decode baseUrl ("Base URL") { allowHttp := isDevEnv }
      if !baseUrlValidation.isValid then
        .error ("Invalid base URL: " ++ String.intercalate (", ") baseUrlValidation.errors)
      else
        let timeout := config.timeout.getD 30000
        let timeoutValidation := validateTimeout timeout
        if !timeoutValidation.isValid then
          .error ("Invalid timeout: " ++ String.intercalate (", ") timeoutValidation.errors)
        else
          .ok
            { apiToken := tok
              baseUrl := baseUrl
              timeout := timeout
              maxResponseSize := config.maxResponseSize.getD ((MAX_RESPONSE_SIZE : Nat) : Int)
              retryConfig :=
                { times := config.retryTimes.getD 3
                  delay := config.retryDelay.getD 100
                  maxDelay := min (config.retryMaxDelay.getD 5000) RATE_LIMIT_MAX_DELAY
                  backoffMultiplier := config.retryBackoffMultiplier.getD 2 } }

/-! ## Claim-side predicates and concrete instances used in witnesses -/

/-- Absence of ASCII control characters (CR, LF, NUL, `\x01`-`\x1f`,
`\x7f`) in a string. -/
def noAsciiControl (s : String) : Bool := s.data.all (fun c => !isCtlChar c)

/-- The blocked SSRF targets enumerated by the specification: the loopback
names, the cloud metadata address, and hostnames inside the RFC1918 ranges
`10/8`, `172.16/12` and `192.168/16` (written as the corresponding
dotted prefixes). -/
def blockedSsrfHostname (h : String) : Prop :=
  h = "localhost" ∨ h = "127.0.0.1" ∨ h = "::1" ∨ h = "0.0.0.0" ∨
  h = "169.254.169.254" ∨
  (∃ rest : String, h = "10." ++ rest) ∨
  (∃ second : String, ∃ rest : String,
    second ∈ ["16", "17", "18", "19", "20", "21", "22", "23", "24", "25",
              "26", "27", "28", "29", "30", "31"] ∧
    h = ("172." ++ second ++ ".") ++ rest) ∨
  (∃ rest : String, h = "192.168." ++ rest)

/-- The default retry configuration of the SDK
(`times 3, delay 100ms, maxDelay 5000ms, multiplier 2`). -/
def cfgDefault : RetryConfig := ⟨3, 100, 5000, 2⟩

/-- A retry configuration with a negative initial delay (accepted by the
constructor, which does not validate retry fields). -/
def cfgNegDelay : RetryConfig := ⟨3, -1, 5000, 2⟩

/-- A transport whose every attempt fails with a network error. -/
def alwaysNetworkFailure : Int → Except MeruError ApiResp :=
  fun _ => .error (.meru ("Network error occurred") none)

/-- A transport whose every attempt fails with HTTP 429 carrying the given
Retry-After seconds. -/
def alwaysRateLimited (retryAfter : Int) : Int → Except MeruError ApiResp :=
  fun _ => .error (.rateLimit ("Rate limit exceeded") none (some retryAfter))

/-- A plain HTTP 401 response: no body, no declared length, not JSON. -/
def resp401 : FetchResponse := ⟨401, "Unauthorized", [], [], ""⟩

/-- A fetch plan answering HTTP 401 on every attempt. -/
def plan401 : Int → FetchResult := fun _ => .response resp401

/-- An HTTP 200 response declaring a `Content-Length` of 20000000 bytes,
above the default 10 MiB cap. -/
def respTooLarge : FetchResponse :=
  ⟨200, "OK", [("content-length", "20000000")], [], ""⟩

/-- A fetch plan whose every response declares an over-large body. -/
def planTooLarge : Int → FetchResult := fun _ => .response respTooLarge

/-- An HTTP 200 response with no declared length whose streamed body is one
20000000-byte chunk, above the default 10 MiB cap. -/
def respStreamBig : FetchResponse := ⟨200, ("OK"), [], [20000000], ("")⟩

/-- A fetch plan whose every response streams an over-large body. -/
def planStreamBig : Int → FetchResult := fun _ => .response respStreamBig

/-- An HTTP 200 response declaring a JSON content type whose body text does
not parse as JSON. -/
def respBadJson : FetchResponse :=
  ⟨200, ("OK"), [(("content-type"), ("application/json"))], [], ("not json")⟩

/-- A fetch plan whose every response carries an unparsable JSON body. -/
def planBadJson : Int → FetchResult := fun _ => .response respBadJson

/-- A fetch response to which `makeRequest` reacts with a response-too-large
or malformed-response failure: the declared `Content-Length` exceeds the
cap, or the streamed body exceeds the cap mid-read, or the JSON body fails
`validateJsonString` (parse error or depth bomb). -/
def sizeOrJsonFailure (parse : String → Option Json) (maxResponseSize : Int)
    (r : FetchResponse) : Prop :=
  declaredTooLarge maxResponseSize r = true ∨
  (declaredTooLarge maxResponseSize r = false ∧
    readWithinLimit maxResponseSize r = false) ∨
  (declaredTooLarge maxResponseSize r = false ∧
    readWithinLimit maxResponseSize r = true ∧
    isJsonResponse r = true ∧ r.bodyText ≠ "" ∧
    (validateJsonString (jsLength r.bodyText) (parse r.bodyText)).isValid = false)

/-- An HTTP 429 response carrying `Retry-After: 301` (above the 300 s cap). -/
def resp429big : FetchResponse :=
  ⟨429, "Too Many Requests", [("retry-after", "301")], [], ""⟩

/-- A fetch plan whose every response is the 429 with `Retry-After: 301`. -/
def plan429big : Int → FetchResult := fun _ => .response resp429big

/-- A JSON parser stub used where no JSON body ever occurs. -/
def parseNoJson : String → Option Json := fun _ => none

/-- A platform URL parser stub resolving exactly the default base URL. -/
def demoUrlParse : String → Option ParsedUrl :=
  fun s =>
    if s = "https://api.meruhook.com" then
      some ⟨"https:", "api.meruhook.com", "/", ""⟩
    else none

/-- A platform URL parser stub resolving one webhook URL on the metadata
address. -/
def metadataUrlParse : String → Option ParsedUrl :=
  fun s =>
    if s = "https://169.254.169.254/hook" then
      some ⟨"https:", "169.254.169.254", "/hook", ""⟩
    else none

/-- A `decodeURIComponent` stub for URLs without percent-escapes. -/
def demoDecode : String → Option String := fun s => some s

/-- A client configuration with a valid token, base URL and timeout but a
zero `maxResponseSize`. -/
def cfgZeroMaxSize : MeruClientConfig :=
  { apiToken := some ("t"), maxResponseSize := some 0 }

/-- The state the constructor produces from `cfgZeroMaxSize`. -/
def stateZeroMaxSize : HttpClientState :=
  { apiToken := "t"
    baseUrl := "https://api.meruhook.com"
    timeout := 30000
    maxResponseSize := 0
    retryConfig := ⟨3, 100, 5000, 2⟩ }

/-- A JSON array nested `n` levels deep around a number. -/
def nestedArray : Nat → Json
  | 0 => .num 0
  | n + 1 => .arr [nestedArray n]

/-- Caller headers for the header-sanitisation witness. -/
def customDemoHeaders : List (String × String) := [("X-Trace", "  hello  ")]

/-- The header set produced for `customDemoHeaders` with token `t`. -/
def demoHeaderResult : List (String × String) :=
  baseHeaders ("t") ++ [("X-Trace", "hello")]

/-! ## Helper lemmas -/

lemma nil_isPrefixOf (l : List Char) : ([] : List Char).isPrefixOf l = true := by
  cases l <;> rfl

lemma isPrefixOf_append_self (p t : List Char) : p.isPrefixOf (p ++ t) = true := by
  induction p with
  | nil => exact nil_isPrefixOf t
  | cons c cs ih => simp [List.isPrefixOf, ih]

lemma string_append_ne_empty (p rest : String) (hp : p.data ≠ []) : p ++ rest ≠ "" := by
  intro hc
  have h2 : p.data ++ rest.data = ([] : List Char) := by
    have h3 := congrArg String.data hc
    simpa [String.data_append] using h3
  exact hp (List.append_eq_nil.mp h2).1

lemma jsToLower_append_of_fixed (p rest : String)
    (hlow : p.data.map Char.toLower = p.data) :
    jsToLower (p ++ rest) = ⟨p.data ++ rest.data.map Char.toLower⟩ := by
  unfold jsToLower
  congr 1
  rw [String.data_append, List.map_append, hlow]

lemma jsStartsWith_of_append (p b : List Char) :
    jsStartsWith ⟨p ++ b⟩ ⟨p⟩ = true := by
  unfold jsStartsWith
  exact isPrefixOf_append_self p b

lemma isPrefixOf_append_right (p a b : List Char) (h : p.isPrefixOf a = true) :
    p.isPrefixOf (a ++ b) = true := by
  induction p generalizing a with
  | nil => exact nil_isPrefixOf (a ++ b)
  | cons c cs ih =>
    cases a with
    | nil => simp [List.isPrefixOf] at h
    | cons x xs =>
      simp only [List.isPrefixOf, Bool.and_eq_true] at h ⊢
      exact ⟨h.1, ih xs h.2⟩

lemma jsStartsWith_extend (a b : List Char) (p : String)
    (h : jsStartsWith ⟨a⟩ p = true) : jsStartsWith ⟨a ++ b⟩ p = true := by
  unfold jsStartsWith at h ⊢
  exact isPrefixOf_append_right p.data a b h

lemma isPrivateNetwork_extend (a b : List Char)
    (h : isPrivateNetwork ⟨a⟩ = true) : isPrivateNetwork ⟨a ++ b⟩ = true := by
  unfold isPrivateNetwork at h ⊢
  rw [Bool.or_eq_true, Bool.or_eq_true] at h ⊢
  rcases h with (h | h) | h
  · exact Or.inl (Or.inl (jsStartsWith_extend a b _ h))
  · refine Or.inl (Or.inr ?_)
    rw [List.any_eq_true] at h ⊢
    obtain ⟨n, hn, hsw⟩ := h
    exact ⟨n, hn, jsStartsWith_extend a b _ hsw⟩
  · exact Or.inr (jsStartsWith_extend a b _ h)

lemma isPrivateNetwork_lower_append (p rest : String)
    (hlow : p.data.map Char.toLower = p.data)
    (hp : isPrivateNetwork p = true) :
    isPrivateNetwork (jsToLower (p ++ rest)) = true := by
  rw [jsToLower_append_of_fixed p rest hlow]
  exact isPrivateNetwork_extend p.data (rest.data.map Char.toLower) hp

/-! ## C7 — backoff delay formula and monotonicity -/

/-- C7 (counterexample): as stated the claim is false on this code: with the
configuration `delay = -1 ms, backoffMultiplier = 2 ≥ 1, maxDelay = 5000`,
the computed delay strictly decreases from attempt 1 to attempt 2 (and never
reaches `maxDelay`), because the code never constrains `delay` to be
non-negative. -/
theorem computeDelay_not_monotone_for_negative_delay :
    1 ≤ cfgNegDelay.backoffMultiplier ∧
    ¬(computeDelay cfgNegDelay 1 ≤ computeDelay cfgNegDelay 2) := by
  constructor
  · norm_num [cfgNegDelay]
  · norm_num [computeDelay, cfgNegDelay]

/-- C7 (amended): for every attempt the retry delay equals
`min(initialDelayMs * backoffMultiplier ^ (attempt - 1), maxDelayMs)`, and
under the preconditions `backoffMultiplier ≥ 1` and `initialDelayMs ≥ 0` the
delay is non-decreasing in the attempt number and, once it reaches
`maxDelayMs`, stays at `maxDelayMs` for every later attempt. -/
theorem computeDelay_formula_and_monotone (cfg : RetryConfig)
    (hmult : 1 ≤ cfg.backoffMultiplier) (hdelay : 0 ≤ cfg.delay) :
    (∀ n : Int, computeDelay cfg n =
      min (cfg.delay * cfg.backoffMultiplier ^ (n - 1).toNat) cfg.maxDelay) ∧
    (∀ n m : Int, n ≤ m → computeDelay cfg n ≤ computeDelay cfg m) ∧
    (∀ n m : Int, n ≤ m → computeDelay cfg n = cfg.maxDelay →
      computeDelay cfg m = cfg.maxDelay) := by
  have raw_mono : ∀ n m : Int, n ≤ m →
      cfg.delay * cfg.backoffMultiplier ^ (n - 1).toNat ≤
        cfg.delay * cfg.backoffMultiplier ^ (m - 1).toNat := by
    intro n m hnm
    have hexp : (n - 1).toNat ≤ (m - 1).toNat := by omega
    exact mul_le_mul_of_nonneg_left (pow_le_pow_right₀ hmult hexp) hdelay
  refine ⟨fun n => rfl, ?_, ?_⟩
  · intro n m hnm
    exact min_le_min (raw_mono n m hnm) le_rfl
  · intro n m hnm heq
    have h1 : cfg.maxDelay ≤ cfg.delay * cfg.backoffMultiplier ^ (n - 1).toNat :=
      min_eq_right_iff.mp heq
    exact min_eq_right (h1.trans (raw_mono n m hnm))

/-- C7 (witness): the amended theorem applied to the default configuration
at attempts 2 ≤ 3. -/
theorem computeDelay_monotone_witness :
    computeDelay cfgDefault 2 ≤ computeDelay cfgDefault 3 :=
  (computeDelay_formula_and_monotone cfgDefault (by norm_num [cfgDefault])
    (by norm_num [cfgDefault])).2.1 2 3 (by norm_num)

/-! ## C8 — `validateJsonString` bounds -/

/-- C8: `validateJsonString` accepts exactly the inputs that are within the
size cap and parse to a JSON value of depth at most `MAX_JSON_DEPTH` (100):
it rejects every well-formed document whose nesting depth exceeds 100
regardless of its size, rejects every parse failure, and rejects inputs
longer than `MAX_RESPONSE_SIZE`; inputs within all three bounds are
accepted. -/
theorem validateJsonString_valid_iff (len : Nat) (parsed : Option Json) :
    (validateJsonString len parsed).isValid = true ↔
      (len ≤ MAX_RESPONSE_SIZE ∧
        ∃ j, parsed = some j ∧ getObjectDepth j 0 ≤ MAX_JSON_DEPTH) := by
  unfold validateJsonString
  cases parsed with
  | none => simp
  | some j =>
    by_cases h1 : MAX_RESPONSE_SIZE < len
    all_goals by_cases h2 : MAX_JSON_DEPTH < getObjectDepth j 0
    all_goals simp [h1, h2]
    all_goals omega

lemma getObjectDepth_nestedArray (n : Nat) :
    ∀ d : Nat, d ≤ MAX_JSON_DEPTH + 1 →
      getObjectDepth (nestedArray n) d = min (d + n) (MAX_JSON_DEPTH + 1) := by
  induction n with
  | zero =>
    intro d hd
    unfold nestedArray getObjectDepth
    split
    · omega
    · simp only []
      omega
  | succ k ih =>
    intro d hd
    unfold nestedArray
    unfold getObjectDepth
    split
    · omega
    · rename_i hle
      unfold arrayMaxDepth arrayMaxDepth
      have hrec := ih (d + 1) (by unfold MAX_JSON_DEPTH at *; omega)
      rw [hrec]
      unfold MAX_JSON_DEPTH at *
      omega

/-- A JSON document nested 150 levels deep is rejected by
`validateJsonString` whatever the input length: the depth counter
short-circuits at 101 > 100. -/
theorem nestedArray150_rejected (len : Nat) :
    (validateJsonString len (some (nestedArray 150))).isValid = false := by
  have hdepth : getObjectDepth (nestedArray 150) 0 = 101 := by
    have h := getObjectDepth_nestedArray 150 0 (by norm_num [MAX_JSON_DEPTH])
    simpa [MAX_JSON_DEPTH] using h
  unfold validateJsonString
  simp [hdepth, MAX_JSON_DEPTH]

/-! ## Retry-loop lemmas -/

lemma requestGo_allGeneric (cfg : RetryConfig) (transport : Int → Except MeruError ApiResp)
    (f : Int → String) (g : Int → Option ApiResp)
    (h : ∀ k, transport k = .error (.meru (f k) (g k))) :
    ∀ (fuel : Nat) (attempt : Int) (lastError : Option MeruError),
      1 ≤ fuel → 1 ≤ attempt → attempt + (fuel : Int) = cfg.times + 2 →
      (requestGo cfg transport fuel attempt lastError).tries = fuel ∧
      (requestGo cfg transport fuel attempt lastError).sleeps =
        (List.range' attempt.toNat (fuel - 1)).map
          (fun a => computeDelay cfg (Int.ofNat a)) ∧
      (requestGo cfg transport fuel attempt lastError).result =
        .error (some (.meru (f (cfg.times + 1)) (g (cfg.times + 1)))) := by
  intro fuel
  induction fuel with
  | zero => intro attempt lastError h1 _ _; exact absurd h1 (by omega)
  | succ k ih =>
    intro attempt lastError h1 hatt h2
    have ht := h attempt
    by_cases hc : cfg.times < attempt
    · have hk : k = 0 := by omega
      have ha : attempt = cfg.times + 1 := by omega
      subst hk
      simp only [requestGo, ht, if_pos hc]
      refine ⟨by simp, by simp, by rw [ha]⟩
    · have hk1 : 1 ≤ k := by omega
      have h2a : (attempt + 1) + (k : Int) = cfg.times + 2 := by omega
      obtain ⟨iht, ihs, ihr⟩ :=
        ih (attempt + 1) (some (.meru (f attempt) (g attempt))) hk1 (by omega) h2a
      simp only [requestGo, ht, if_neg hc]
      refine ⟨by rw [iht], ?_, ihr⟩
      rw [ihs]
      have hrange : List.range' attempt.toNat (k + 1 - 1) =
          attempt.toNat :: List.range' ((attempt + 1).toNat) (k - 1) := by
        have h3 : (attempt + 1).toNat = attempt.toNat + 1 := by omega
        have h4 : k + 1 - 1 = (k - 1) + 1 := by omega
        rw [h3, h4, List.range'_succ]
      rw [hrange, List.map_cons]
      have h5 : Int.ofNat attempt.toNat = attempt := Int.toNat_of_nonneg (by omega)
      rw [h5]

/-- C1: with `maxAttempts = n` (`retry.times = n ≥ 0`) and a transport whose
every attempt fails with a retryable generic failure (for example a network
error), `HttpClient.request` invokes the transport exactly `n + 1` times and
raises the failure of the last attempt; the attempt count of one logical
call is bounded by the configuration, never unbounded. -/
theorem request_retry_exhaustion (n : Nat) (cfg : RetryConfig)
    (transport : Int → Except MeruError ApiResp)
    (f : Int → String) (g : Int → Option ApiResp)
    (hn : cfg.times = (n : Int))
    (h : ∀ k, transport k = .error (.meru (f k) (g k))) :
    (request cfg transport).tries = n + 1 ∧
    (request cfg transport).result =
      .error (some (.meru (f (cfg.times + 1)) (g (cfg.times + 1)))) := by
  have hfuel : (cfg.times + 1).toNat = n + 1 := by omega
  unfold request
  rw [hfuel]
  obtain ⟨h1, _, h3⟩ :=
    requestGo_allGeneric cfg transport f g h (n + 1) 1 none (by omega) (by omega) (by omega)
  exact ⟨h1, h3⟩

/-- C1 (witness): the default configuration (`times = 3`) against a transport
that always fails with a network error: exactly 4 transport invocations and
the network failure is raised. -/
theorem request_retry_exhaustion_witness :
    (request cfgDefault alwaysNetworkFailure).tries = 4 ∧
    (request cfgDefault alwaysNetworkFailure).result =
      .error (some (.meru ("Network error occurred") none)) :=
  request_retry_exhaustion 3 cfgDefault alwaysNetworkFailure
    (fun _ => "Network error occurred") (fun _ => none) rfl (fun _ => rfl)

/-! ## `makeRequest` classification lemmas -/

lemma makeRequest_error_response (parse : String → Option Json)
    (timeoutMs maxResponseSize : Int) (r : FetchResponse)
    (hsize : declaredTooLarge maxResponseSize r = false)
    (hread : readWithinLimit maxResponseSize r = true)
    (hjson : isJsonResponse r = true →
      r.bodyText = "" ∨
        (validateJsonString (jsLength r.bodyText) (parse r.bodyText)).isValid = true)
    (hnotok : ¬(200 ≤ r.status ∧ r.status ≤ 299)) :
    ∃ d : JsonData, makeRequest parse timeoutMs maxResponseSize (.response r) =
      .error (handleHttpError ⟨d, r.status, r.statusText, lowerHeaders r.headers⟩) := by
  have hokbool : (200 ≤ r.status && r.status ≤ 299) = false := by
    by_cases h1 : 200 ≤ r.status
    · have h2 : ¬(r.status ≤ 299) := fun h2 => hnotok ⟨h1, h2⟩
      simp [h1, h2]
    · simp [h1]
  simp only [makeRequest]
  rw [if_neg (by simp [hsize])]
  rw [if_neg (by simp [hread])]
  by_cases hj : isJsonResponse r = true
  · rcases hjson hj with hbody | hvalid
    · refine ⟨.nullData, ?_⟩
      rw [if_pos hj, if_pos (by simp [hbody])]
      simp [hokbool]
    · by_cases hb2 : r.bodyText == ""
      · refine ⟨.nullData, ?_⟩
        rw [if_pos hj, if_pos hb2]
        simp [hokbool]
      · cases hp : parse r.bodyText with
        | some j =>
          refine ⟨.json j, ?_⟩
          rw [hp] at hvalid
          rw [if_pos hj, if_neg hb2, if_pos hvalid]
          simp [hokbool]
        | none =>
          refine ⟨.nullData, ?_⟩
          rw [hp] at hvalid
          rw [if_pos hj, if_neg hb2, if_pos hvalid]
          simp [hokbool]
  · refine ⟨.text r.bodyText, ?_⟩
    rw [if_neg hj]
    simp [hokbool]

lemma handleHttpError_401 (api : ApiResp) (h : api.status = 401) :
    handleHttpError api =
      .authentication ((dataMessage api.data).getD ("Authentication failed")) (some api) := by
  unfold handleHttpError
  rw [if_pos (by simp [h])]

lemma handleHttpError_422 (api : ApiResp) (h : api.status = 422) :
    handleHttpError api =
      .validation ((dataMessage api.data).getD ("Validation failed")) (some api) := by
  unfold handleHttpError
  rw [if_neg (by simp [h]), if_pos (by simp [h])]

lemma handleHttpError_429 (api : ApiResp) (h : api.status = 429) :
    handleHttpError api =
      .rateLimit ((dataMessage api.data).getD ("Rate limit exceeded")) (some api)
        (parseRetryAfter api) := by
  unfold handleHttpError
  rw [if_neg (by simp [h]), if_neg (by simp [h]), if_pos (by simp [h])]

/-! ## Non-retryable short-circuit lemmas -/

lemma request_immediate_auth (cfg : RetryConfig)
    (transport : Int → Except MeruError ApiResp) (m : String) (resp : Option ApiResp)
    (h0 : 0 ≤ cfg.times) (he : transport 1 = .error (.authentication m resp)) :
    request cfg transport = ⟨1, [], .error (some (.authentication m resp))⟩ := by
  unfold request
  obtain ⟨k, hk⟩ : ∃ k, (cfg.times + 1).toNat = k + 1 := ⟨cfg.times.toNat, by omega⟩
  rw [hk]
  simp [requestGo, he]

lemma request_immediate_validation (cfg : RetryConfig)
    (transport : Int → Except MeruError ApiResp) (m : String) (resp : Option ApiResp)
    (h0 : 0 ≤ cfg.times) (he : transport 1 = .error (.validation m resp)) :
    request cfg transport = ⟨1, [], .error (some (.validation m resp))⟩ := by
  unfold request
  obtain ⟨k, hk⟩ : ∃ k, (cfg.times + 1).toNat = k + 1 := ⟨cfg.times.toNat, by omega⟩
  rw [hk]
  simp [requestGo, he]

/-- C4: an attempt whose response carries HTTP 401 (classified as an
authentication failure) or HTTP 422 (remote validation failure) — with its
body processed without a size or JSON failure — makes `request` raise that
failure immediately: the transport is invoked exactly once even though retry
attempts remain, and the raised failure is the corresponding
authentication/validation exception. -/
theorem request_401_422_no_retry (cfg : RetryConfig) (parse : String → Option Json)
    (timeoutMs maxResponseSize : Int) (plan : Int → FetchResult) (r : FetchResponse)
    (h0 : 0 ≤ cfg.times) (hplan : plan 1 = .response r)
    (hsize : declaredTooLarge maxResponseSize r = false)
    (hread : readWithinLimit maxResponseSize r = true)
    (hjson : isJsonResponse r = true →
      r.bodyText = "" ∨
        (validateJsonString (jsLength r.bodyText) (parse r.bodyText)).isValid = true)
    (hstatus : r.status = 401 ∨ r.status = 422) :
    (requestFetch cfg parse timeoutMs maxResponseSize plan).tries = 1 ∧
    (r.status = 401 → ∃ m resp,
      (requestFetch cfg parse timeoutMs maxResponseSize plan).result =
        .error (some (.authentication m resp))) ∧
    (r.status = 422 → ∃ m resp,
      (requestFetch cfg parse timeoutMs maxResponseSize plan).result =
        .error (some (.validation m resp))) := by
  have hnotok : ¬(200 ≤ r.status ∧ r.status ≤ 299) := by
    rcases hstatus with h | h <;> omega
  obtain ⟨d, hmk⟩ :=
    makeRequest_error_response parse timeoutMs maxResponseSize r hsize hread hjson hnotok
  have htrans : makeRequest parse timeoutMs maxResponseSize (plan 1) =
      .error (handleHttpError ⟨d, r.status, r.statusText, lowerHeaders r.headers⟩) := by
    rw [hplan]
    exact hmk
  unfold requestFetch
  rcases hstatus with h401 | h422
  · rw [handleHttpError_401 ⟨d, r.status, r.statusText, lowerHeaders r.headers⟩ h401] at htrans
    have hreq := request_immediate_auth cfg
      (fun attempt => makeRequest parse timeoutMs maxResponseSize (plan attempt))
      _ _ h0 htrans
    refine ⟨by rw [hreq], fun _ => ⟨_, _, by rw [hreq]⟩, fun h422 => ?_⟩
    omega
  · rw [handleHttpError_422 ⟨d, r.status, r.statusText, lowerHeaders r.headers⟩ h422] at htrans
    have hreq := request_immediate_validation cfg
      (fun attempt => makeRequest parse timeoutMs maxResponseSize (plan attempt))
      _ _ h0 htrans
    refine ⟨by rw [hreq], fun h401 => ?_, fun _ => ⟨_, _, by rw [hreq]⟩⟩
    omega

/-- C4 (witness): a transport answering HTTP 401 (no body, no declared
length) with the default configuration: exactly one transport invocation and
an authentication failure is raised. -/
theorem request_401_witness :
    (requestFetch cfgDefault parseNoJson 30000 10485760 plan401).tries = 1 ∧
    ∃ m resp, (requestFetch cfgDefault parseNoJson 30000 10485760 plan401).result =
      .error (some (.authentication m resp)) := by
  obtain ⟨h1, h2, _⟩ :=
    request_401_422_no_retry cfgDefault parseNoJson 30000 10485760 plan401 resp401
      (by norm_num [cfgDefault]) rfl (by decide) (by decide) (by decide) (Or.inl rfl)
  exact ⟨h1, h2 rfl⟩

/-! ## Rate-limit retry behavior -/

lemma requestGo_allRateLimited (cfg : RetryConfig)
    (transport : Int → Except MeruError ApiResp) (ra : Int)
    (m : Int → String) (g : Int → Option ApiResp)
    (h : ∀ k, transport k = .error (.rateLimit (m k) (g k) (some ra)))
    (hra : retryAfterUsable (some ra) = true) :
    ∀ (fuel : Nat) (attempt : Int) (lastError : Option MeruError),
      1 ≤ fuel → attempt + (fuel : Int) = cfg.times + 2 →
      requestGo cfg transport fuel attempt lastError =
        ⟨fuel, List.replicate (fuel - 1) (((ra : Int) : ℚ) * 1000),
          .error (some (.rateLimit (m (cfg.times + 1)) (g (cfg.times + 1)) (some ra)))⟩ := by
  intro fuel
  induction fuel with
  | zero => intro attempt lastError h1 _; exact absurd h1 (by omega)
  | succ k ih =>
    intro attempt lastError h1 h2
    have ht := h attempt
    by_cases hc : attempt ≤ cfg.times
    · have hk1 : 1 ≤ k := by omega
      have h2a : (attempt + 1) + (k : Int) = cfg.times + 2 := by omega
      have ihr := ih (attempt + 1) (some (.rateLimit (m attempt) (g attempt) (some ra))) hk1 h2a
      simp only [requestGo, ht, if_pos hra, if_pos hc, ihr, Option.getD_some]
      have hrep : k = (k - 1) + 1 := by omega
      have hsleep : List.replicate (k + 1 - 1) (((ra : Int) : ℚ) * 1000) =
          ((ra : Int) : ℚ) * 1000 :: List.replicate (k - 1) (((ra : Int) : ℚ) * 1000) := by
        rw [Nat.add_sub_cancel]
        conv_lhs => rw [hrep]
        rw [List.replicate_succ]
      rw [hsleep]
    · have hk : k = 0 := by omega
      have ha : attempt = cfg.times + 1 := by omega
      subst hk
      simp only [requestGo, ht, if_pos hra, if_neg hc]
      rw [ha]
      simp

lemma request_rateLimit_unusable (cfg : RetryConfig)
    (transport : Int → Except MeruError ApiResp) (m : String) (resp : Option ApiResp)
    (ra : Option Int) (h0 : 0 ≤ cfg.times)
    (he : transport 1 = .error (.rateLimit m resp ra))
    (hra : retryAfterUsable ra = false) :
    request cfg transport = ⟨1, [], .error (some (.rateLimit m resp ra))⟩ := by
  unfold request
  obtain ⟨k, hk⟩ : ∃ k, (cfg.times + 1).toNat = k + 1 := ⟨cfg.times.toNat, by omega⟩
  rw [hk]
  simp [requestGo, he, hra]

/-- C2 (counterexample): as stated the claim is false on this code: the
Retry-After value is not clamped to 300 s. With the default configuration
(3 retries remain) and a first attempt answering HTTP 429 with
`Retry-After: 301`, `request` raises the rate-limit failure immediately —
one transport invocation and no wait — instead of retrying after the claimed
clamped 300-second wait. -/
theorem rateLimit_301_not_retried :
    (requestFetch cfgDefault parseNoJson 30000 10485760 plan429big).tries = 1 ∧
    (requestFetch cfgDefault parseNoJson 30000 10485760 plan429big).sleeps = [] := by
  constructor
  · rfl
  · rfl

/-- C2 (amended): a rate-limit failure is retried only when its parsed
Retry-After value is present, non-zero, and at most 300 seconds
(`retryAfterUsable`); in that case each retry waits exactly the
server-specified `retryAfter * 1000` ms (unclamped — it overrides the
exponential backoff), and such failures keep being retried until attempts
are exhausted, after which the failure is raised; when the value is missing,
zero, or above 300, the failure is raised immediately even if retry attempts
remain. -/
theorem request_rateLimit_behavior (cfg : RetryConfig) (n : Nat)
    (hn : cfg.times = (n : Int)) :
    (∀ (transport : Int → Except MeruError ApiResp) (ra : Int)
        (m : Int → String) (g : Int → Option ApiResp),
      (∀ k, transport k = .error (.rateLimit (m k) (g k) (some ra))) →
      retryAfterUsable (some ra) = true →
      request cfg transport =
        ⟨n + 1, List.replicate n (((ra : Int) : ℚ) * 1000),
          .error (some (.rateLimit (m (cfg.times + 1)) (g (cfg.times + 1)) (some ra)))⟩) ∧
    (∀ (transport : Int → Except MeruError ApiResp) (m : String)
        (resp : Option ApiResp) (ra : Option Int),
      transport 1 = .error (.rateLimit m resp ra) →
      retryAfterUsable ra = false →
      request cfg transport = ⟨1, [], .error (some (.rateLimit m resp ra))⟩) := by
  constructor
  · intro transport ra m g h hra
    have hfuel : (cfg.times + 1).toNat = n + 1 := by omega
    unfold request
    rw [hfuel]
    have := requestGo_allRateLimited cfg transport ra m g h hra (n + 1) 1 none
      (by omega) (by omega)
    simpa using this
  · intro transport m resp ra he hra
    exact request_rateLimit_unusable cfg transport m resp ra (by omega) he hra

/-- C2 (witness): the amended theorem at the default configuration with a
transport always rate-limited with `Retry-After: 2`: four invocations, three
2000 ms waits, and the rate-limit failure raised at exhaustion. -/
theorem request_rateLimit_witness :
    request cfgDefault (alwaysRateLimited 2) =
      ⟨4, List.replicate 3 (((2 : Int) : ℚ) * 1000),
        .error (some (.rateLimit ("Rate limit exceeded") none (some 2)))⟩ :=
  (request_rateLimit_behavior cfgDefault 3 rfl).1 (alwaysRateLimited 2) 2
    (fun _ => "Rate limit exceeded") (fun _ => none) (fun _ => rfl) (by decide)

/-! ## Size-limit failures are generic and retried -/

/-- C3 (counterexample): as stated the claim is false on this code: a
response-too-large failure is raised as a plain `MeruException`, which the
retry loop does retry. With the default configuration and every attempt
declaring `Content-Length: 20000000` (above the 10 MiB cap), the transport
is invoked 4 times — further attempts are made although the claim says the
failure is raised with no further transport attempt. -/
theorem tooLarge_retried_counterexample :
    (requestFetch cfgDefault parseNoJson 30000 10485760 planTooLarge).tries = 4 := by
  rfl

lemma makeRequest_declaredTooLarge (parse : String → Option Json)
    (timeoutMs maxResponseSize : Int) (r : FetchResponse)
    (hbig : declaredTooLarge maxResponseSize r = true) :
    makeRequest parse timeoutMs maxResponseSize (.response r) =
      .error (.meru ("Response size " ++
        (headerGetCI r.headers ("content-length")).getD ("") ++
        " exceeds maximum allowed size of " ++ toString maxResponseSize ++ " bytes")
        none) := by
  simp only [makeRequest]
  rw [if_pos hbig]

lemma makeRequest_streamTooLarge (parse : String → Option Json)
    (timeoutMs maxResponseSize : Int) (r : FetchResponse)
    (hsize : declaredTooLarge maxResponseSize r = false)
    (hread : readWithinLimit maxResponseSize r = false) :
    makeRequest parse timeoutMs maxResponseSize (.response r) =
      .error (.meru ("Response size exceeds maximum allowed size of "
        ++ toString maxResponseSize ++ " bytes") none) := by
  simp only [makeRequest]
  rw [if_neg (by simp [hsize]), if_pos (by simp [hread])]

lemma makeRequest_malformedJson (parse : String → Option Json)
    (timeoutMs maxResponseSize : Int) (r : FetchResponse)
    (hsize : declaredTooLarge maxResponseSize r = false)
    (hread : readWithinLimit maxResponseSize r = true)
    (hjson : isJsonResponse r = true)
    (hbody : r.bodyText ≠ "")
    (hinvalid : (validateJsonString (jsLength r.bodyText) (parse r.bodyText)).isValid = false) :
    makeRequest parse timeoutMs maxResponseSize (.response r) =
      .error (.meru ("Invalid JSON response: " ++
        String.intercalate (", ")
          (validateJsonString (jsLength r.bodyText) (parse r.bodyText)).errors) none) := by
  simp only [makeRequest]
  rw [if_neg (by simp [hsize]), if_neg (by simp [hread]), if_pos hjson,
    if_neg (by simp [hbody]), if_neg (by simp [hinvalid])]

/-- C3 (amended): response-too-large failures — declared `Content-Length`
over the cap or streamed body bytes exceeding the cap mid-read — and
malformed-response failures (JSON parse error or depth-bomb validation
failure) are raised as generic `MeruException`s, which the retry loop treats
like any transient failure: with `times = n` and every attempt failing with
such a failure, the transport is invoked `n + 1` times with the computed
exponential backoff slept between consecutive attempts, and the generic
failure is raised only after attempts are exhausted. -/
theorem responseTooLarge_generic_retried (cfg : RetryConfig) (n : Nat)
    (parse : String → Option Json) (timeoutMs maxResponseSize : Int)
    (plan : Int → FetchResult)
    (hn : cfg.times = (n : Int))
    (h : ∀ k, ∃ r, plan k = .response r ∧ sizeOrJsonFailure parse maxResponseSize r) :
    (requestFetch cfg parse timeoutMs maxResponseSize plan).tries = n + 1 ∧
    (requestFetch cfg parse timeoutMs maxResponseSize plan).sleeps =
      (List.range' 1 n).map (fun a => computeDelay cfg (Int.ofNat a)) ∧
    ∃ msg, (requestFetch cfg parse timeoutMs maxResponseSize plan).result =
      .error (some (.meru msg none)) := by
  have herr : ∀ k, ∃ msg,
      (fun attempt => makeRequest parse timeoutMs maxResponseSize (plan attempt)) k =
        .error (.meru msg none) := by
    intro k
    obtain ⟨r, hpk, hcase⟩ := h k
    show ∃ msg, makeRequest parse timeoutMs maxResponseSize (plan k) = _
    rw [hpk]
    rcases hcase with hbig | ⟨hsize, hread⟩ | ⟨hsize, hread, hjson, hbody, hinvalid⟩
    · exact ⟨_, makeRequest_declaredTooLarge parse timeoutMs maxResponseSize r hbig⟩
    · exact ⟨_, makeRequest_streamTooLarge parse timeoutMs maxResponseSize r hsize hread⟩
    · exact ⟨_, makeRequest_malformedJson parse timeoutMs maxResponseSize r hsize hread
        hjson hbody hinvalid⟩
  choose f hf using herr
  have hfuel : (cfg.times + 1).toNat = n + 1 := by omega
  unfold requestFetch request
  rw [hfuel]
  obtain ⟨h1, h2, h3⟩ := requestGo_allGeneric cfg _ f (fun _ => none) hf (n + 1) 1 none
    (by omega) (by omega) (by omega)
  refine ⟨h1, ?_, _, h3⟩
  rw [h2]
  rfl

/-- C3 (witness): the amended theorem at the default configuration with the
over-declared response on every attempt: 4 invocations, the computed backoff
delays slept in between, and a generic failure raised. -/
theorem responseTooLarge_retried_witness :
    (requestFetch cfgDefault parseNoJson 30000 10485760 planTooLarge).tries = 4 ∧
    (requestFetch cfgDefault parseNoJson 30000 10485760 planTooLarge).sleeps =
      (List.range' 1 3).map (fun a => computeDelay cfgDefault (Int.ofNat a)) ∧
    ∃ msg, (requestFetch cfgDefault parseNoJson 30000 10485760 planTooLarge).result =
      .error (some (.meru msg none)) :=
  responseTooLarge_generic_retried cfgDefault 3 parseNoJson 30000 10485760 planTooLarge
    rfl (fun _ => ⟨respTooLarge, rfl, Or.inl (by decide)⟩)

/-- A streamed body of 20000000 bytes with no declared length is retried to
exhaustion: 4 transport invocations with the default configuration. -/
theorem streamTooLarge_retried :
    (requestFetch cfgDefault parseNoJson 30000 10485760 planStreamBig).tries = 4 := by
  rfl

/-- A JSON response whose body fails validation (here: a parse error) is
retried to exhaustion: 4 transport invocations with the default
configuration. -/
theorem malformedJson_retried :
    (requestFetch cfgDefault parseNoJson 30000 10485760 planBadJson).tries = 4 := by
  rfl

/-! ## Header-map lemmas -/

lemma mem_upsert (hs : List (String × String)) (k v : String) (kv : String × String)
    (h : kv ∈ upsert hs k v) : kv = (k, v) ∨ kv ∈ hs := by
  induction hs with
  | nil => simpa [upsert] using h
  | cons hd tl ih =>
    obtain ⟨k0, v0⟩ := hd
    simp only [upsert] at h
    by_cases hk : k0 == k
    · rw [if_pos hk] at h
      rcases List.mem_cons.mp h with rfl | htl
      · exact Or.inl rfl
      · exact Or.inr (List.mem_cons_of_mem _ htl)
    · rw [if_neg hk] at h
      rcases List.mem_cons.mp h with rfl | htl
      · exact Or.inr (List.mem_cons_self _ _)
      · rcases ih htl with heq | hmem
        · exact Or.inl heq
        · exact Or.inr (List.mem_cons_of_mem _ hmem)

lemma assocLookup_upsert_ne (hs : List (String × String)) (k v key : String)
    (hne : k ≠ key) : assocLookup (upsert hs k v) key = assocLookup hs key := by
  induction hs with
  | nil => simp [upsert, assocLookup, hne]
  | cons hd tl ih =>
    obtain ⟨k0, v0⟩ := hd
    simp only [upsert]
    by_cases hk : k0 == k
    · rw [if_pos hk]
      have hk0 : k0 = k := by simpa using hk
      subst hk0
      simp [assocLookup, hne]
    · rw [if_neg hk]
      by_cases hkey : k0 == key
      · simp [assocLookup, hkey]
      · simp [assocLookup, hkey, ih]

lemma buildHeadersGo_ok_props (custom : List (String × String)) :
    ∀ hs0 hs, buildHeadersGo hs0 custom = .ok hs →
      (∀ key : String, criticalHeaderNames.contains (jsToLower key) = true →
        assocLookup hs key = assocLookup hs0 key) ∧
      (∀ kv, kv ∈ hs → kv ∈ hs0 ∨ ∃ v0, (kv.1, v0) ∈ custom ∧
        kv.2 = sanitizeString v0 (some MAX_HEADER_VALUE_LENGTH) ∧
        criticalHeaderNames.contains (jsToLower kv.1) = false) := by
  induction custom with
  | nil =>
    intro hs0 hs h
    simp only [buildHeadersGo, Except.ok.injEq] at h
    subst h
    exact ⟨fun _ _ => rfl, fun kv hkv => Or.inl hkv⟩
  | cons hd rest ih =>
    intro hs0 hs h
    obtain ⟨key, value⟩ := hd
    simp only [buildHeadersGo] at h
    by_cases h1 : key == ""
    · rw [if_pos h1] at h
      obtain ⟨ihl, ihm⟩ := ih hs0 hs h
      refine ⟨ihl, fun kv hkv => ?_⟩
      rcases ihm kv hkv with hin | ⟨v0, hv0, hval, hcrit⟩
      · exact Or.inl hin
      · exact Or.inr ⟨v0, List.mem_cons_of_mem _ hv0, hval, hcrit⟩
    · rw [if_neg h1] at h
      by_cases h2 : (validateHeaderValue value key).isValid
      · rw [if_neg (by simp [h2])] at h
        by_cases h3 : criticalHeaderNames.contains (jsToLower key)
        · rw [if_pos h3] at h
          obtain ⟨ihl, ihm⟩ := ih hs0 hs h
          refine ⟨ihl, fun kv hkv => ?_⟩
          rcases ihm kv hkv with hin | ⟨v0, hv0, hval, hcrit⟩
          · exact Or.inl hin
          · exact Or.inr ⟨v0, List.mem_cons_of_mem _ hv0, hval, hcrit⟩
        · rw [if_neg h3] at h
          obtain ⟨ihl, ihm⟩ := ih _ hs h
          constructor
          · intro q hq
            rw [ihl q hq]
            apply assocLookup_upsert_ne
            intro hkq
            subst hkq
            exact h3 hq
          · intro kv hkv
            rcases ihm kv hkv with hin | ⟨v0, hv0, hval, hcrit⟩
            · rcases mem_upsert _ _ _ _ hin with rfl | hin2
              · exact Or.inr ⟨value, List.mem_cons_self _ _, rfl, by simpa using h3⟩
              · exact Or.inl hin2
            · exact Or.inr ⟨v0, List.mem_cons_of_mem _ hv0, hval, hcrit⟩
      · rw [if_pos (by simp [h2])] at h
        simp at h

lemma buildHeadersGo_isOk_iff (custom : List (String × String)) :
    ∀ hs0, (buildHeadersGo hs0 custom).isOk = false ↔
      ∃ kv, kv ∈ custom ∧ kv.1 ≠ "" ∧ (validateHeaderValue kv.2 kv.1).isValid = false := by
  induction custom with
  | nil => intro hs0; simp [buildHeadersGo, Except.isOk, Except.toBool]
  | cons hd rest ih =>
    intro hs0
    obtain ⟨key, value⟩ := hd
    simp only [buildHeadersGo]
    by_cases h1 : key == ""
    · rw [if_pos h1, ih hs0]
      have hkey : key = "" := by simpa using h1
      subst hkey
      constructor
      · rintro ⟨kv, hkv, hne, hinv⟩
        exact ⟨kv, List.mem_cons_of_mem _ hkv, hne, hinv⟩
      · rintro ⟨kv, hkv, hne, hinv⟩
        rcases List.mem_cons.mp hkv with rfl | hmem
        · exact absurd rfl hne
        · exact ⟨kv, hmem, hne, hinv⟩
    · rw [if_neg h1]
      have hkeyne : key ≠ "" := by simpa using h1
      by_cases h2 : (validateHeaderValue value key).isValid
      · rw [if_neg (by simp [h2])]
        have hstep : ∀ hs1, ((buildHeadersGo hs1 rest).isOk = false ↔
            ∃ kv, kv ∈ (key, value) :: rest ∧ kv.1 ≠ "" ∧
              (validateHeaderValue kv.2 kv.1).isValid = false) := by
          intro hs1
          rw [ih hs1]
          constructor
          · rintro ⟨kv, hkv, hne, hinv⟩
            exact ⟨kv, List.mem_cons_of_mem _ hkv, hne, hinv⟩
          · rintro ⟨kv, hkv, hne, hinv⟩
            rcases List.mem_cons.mp hkv with rfl | hmem
            · exact absurd h2 (by simp [hinv])
            · exact ⟨kv, hmem, hne, hinv⟩
        by_cases h3 : criticalHeaderNames.contains (jsToLower key)
        · rw [if_pos h3]
          exact hstep hs0
        · rw [if_neg h3]
          exact hstep _
      · rw [if_pos (by simp [h2])]
        simp only [Except.isOk, Except.toBool]
        constructor
        · intro _
          exact ⟨(key, value), List.mem_cons_self _ _, hkeyne, by simpa using h2⟩
        · intro _
          trivial

/-! ## Sanitisation lemmas -/

lemma mem_of_mem_jsTrim (s : String) (c : Char) (h : c ∈ (jsTrim s).data) :
    c ∈ s.data := by
  unfold jsTrim at h
  rw [List.mem_reverse] at h
  have h2 := (@List.dropWhile_sublist Char _ isJsWhitespace).subset h
  rw [List.mem_reverse] at h2
  exact (@List.dropWhile_sublist Char _ isJsWhitespace).subset h2

lemma sanitizeString_data_subset (v : String) (m : Option Nat) (c : Char)
    (hc : c ∈ (sanitizeString v m).data) :
    c ∈ v.data.filter (fun c => !isCtlChar c) := by
  simp only [sanitizeString] at hc
  cases m with
  | none => exact mem_of_mem_jsTrim _ c hc
  | some mm =>
    rw [apply_ite String.data] at hc
    split at hc
    · have := (List.take_sublist mm _).subset hc
      exact mem_of_mem_jsTrim _ c this
    · exact mem_of_mem_jsTrim _ c hc

lemma noAsciiControl_sanitize (v : String) (m : Option Nat) :
    noAsciiControl (sanitizeString v m) = true := by
  unfold noAsciiControl
  rw [List.all_eq_true]
  intro c hc
  have h1 := sanitizeString_data_subset v m c hc
  have h2 := List.mem_filter.mp h1
  simpa using h2.2

lemma jsLength_jsTrim_le (s : String) : jsLength (jsTrim s) ≤ jsLength s := by
  unfold jsLength jsTrim
  have h1 := (@List.dropWhile_sublist Char s.data isJsWhitespace).length_le
  have h2 := (@List.dropWhile_sublist Char
    ((s.data.dropWhile isJsWhitespace).reverse) isJsWhitespace).length_le
  simp only [List.length_reverse] at *
  omega

lemma jsLength_sanitize_le (v : String) (L : Nat) (hL : L ≠ 0) :
    jsLength (sanitizeString v (some L)) ≤ L := by
  simp only [sanitizeString]
  split
  · rename_i hcond
    unfold jsLength
    simp only [List.length_take]
    omega
  · rename_i hcond
    simp only [bne_iff_ne, ne_eq, Bool.and_eq_true, decide_eq_true_eq, not_and] at hcond
    by_cases h2 : L < jsLength (jsTrim ⟨v.data.filter (fun c => !isCtlChar c)⟩)
    · exact absurd h2 (by simpa using hcond hL)
    · omega

/-- C6 (counterexample): as stated the claim is false on this code: an
attempt to set the protected `Authorization` header whose value fails
header-value validation (here it contains a line feed) is not silently
dropped — `buildHeaders` raises a `ValidationException`, because values are
validated before the protected-name check. -/
theorem protected_header_invalid_value_raises :
    (buildHeaders ("t") [(("Authorization"), ("evil\nvalue"))]).isOk = false := by
  decide

/-- C6 (amended): the protected headers are engine-owned in every successful
header build: whatever caller headers the descriptor contains, the outgoing
`Authorization` equals `Bearer <apiToken>`, `User-Agent` equals the fixed
SDK string, and no header whose name lower-cases to `host` is emitted (so
two successful calls differing only in protected extra headers produce
identical `Authorization`/`User-Agent`/`Host`); an attempt to override a
protected header with a value that passes validation is silently dropped and
logged, while a protected header whose value fails validation raises a
`ValidationException` like any other invalid header. -/
theorem buildHeaders_protects_critical (apiToken : String)
    (custom : List (String × String)) (hs : List (String × String))
    (h : buildHeaders apiToken custom = .ok hs) :
    assocLookup hs ("Authorization") = some (("Bearer ") ++ apiToken) ∧
    assocLookup hs ("User-Agent") = some ("@meruhook/node-sdk/1.0.0") ∧
    ∀ kv, kv ∈ hs → jsToLower kv.1 ≠ ("host") := by
  obtain ⟨hl, hm⟩ := buildHeadersGo_ok_props custom (baseHeaders apiToken) hs h
  refine ⟨?_, ?_, ?_⟩
  · rw [hl ("Authorization") (by decide)]
    rfl
  · rw [hl ("User-Agent") (by decide)]
    rfl
  · intro kv hkv hhost
    rcases hm kv hkv with hin | ⟨v0, _, _, hcrit⟩
    · simp only [baseHeaders, List.mem_cons, List.not_mem_nil, or_false] at hin
      rcases hin with rfl | rfl | rfl | rfl
      · exact absurd hhost (show jsToLower ("Accept") ≠ ("host") by decide)
      · exact absurd hhost (show jsToLower ("Content-Type") ≠ ("host") by decide)
      · exact absurd hhost (show jsToLower ("Authorization") ≠ ("host") by decide)
      · exact absurd hhost (show jsToLower ("User-Agent") ≠ ("host") by decide)
    · rw [hhost] at hcrit
      exact absurd hcrit (by decide)

/-- C6 (witness): the theorem applied to token `t` and a caller attempting
`Authorization: Bearer evil`: the outgoing header set is exactly the base
set, with `Authorization: Bearer t`. -/
theorem buildHeaders_protects_critical_witness :
    assocLookup (baseHeaders ("t")) ("Authorization") = some (("Bearer ") ++ ("t")) ∧
    assocLookup (baseHeaders ("t")) ("User-Agent") = some ("@meruhook/node-sdk/1.0.0") := by
  obtain ⟨h1, h2, _⟩ := buildHeaders_protects_critical ("t")
    [(("Authorization"), ("Bearer evil"))] (baseHeaders ("t")) (by rfl)
  exact ⟨h1, h2⟩

/-- C10: header-value hygiene of `buildHeaders`. (a) the build fails (with a
`ValidationException`) exactly when some caller entry with a non-empty name
has a value failing `validateHeaderValue` (over-length or matching a
header-injection pattern) — such a value is never emitted; (b) in a
successful build, every emitted value other than the token-derived
`Authorization` contains no ASCII control character (no CR, LF, NUL,
`\x01`-`\x1f`, `\x7f`) and is at most 8192 characters long; (c) every
emitted entry is either an engine base header or a caller value passed
through `sanitizeString` (strip control characters, trim, truncate). -/
theorem buildHeaders_value_hygiene (apiToken : String)
    (custom : List (String × String)) :
    ((buildHeaders apiToken custom).isOk = false ↔
      ∃ kv, kv ∈ custom ∧ kv.1 ≠ "" ∧
        (validateHeaderValue kv.2 kv.1).isValid = false) ∧
    (∀ hs, buildHeaders apiToken custom = .ok hs → ∀ kv, kv ∈ hs →
      kv.1 ≠ ("Authorization") →
      noAsciiControl kv.2 = true ∧ jsLength kv.2 ≤ MAX_HEADER_VALUE_LENGTH) ∧
    (∀ hs, buildHeaders apiToken custom = .ok hs → ∀ kv, kv ∈ hs →
      kv ∈ baseHeaders apiToken ∨ ∃ v0, (kv.1, v0) ∈ custom ∧
        kv.2 = sanitizeString v0 (some MAX_HEADER_VALUE_LENGTH)) := by
  refine ⟨buildHeadersGo_isOk_iff custom (baseHeaders apiToken), ?_, ?_⟩
  · intro hs h kv hkv hne
    obtain ⟨_, hm⟩ := buildHeadersGo_ok_props custom (baseHeaders apiToken) hs h
    rcases hm kv hkv with hin | ⟨v0, _, hval, _⟩
    · simp only [baseHeaders, List.mem_cons, List.not_mem_nil, or_false] at hin
      rcases hin with rfl | rfl | rfl | rfl
      · exact ⟨by decide, by decide⟩
      · exact ⟨by decide, by decide⟩
      · exact absurd rfl hne
      · exact ⟨by decide, by decide⟩
    · rw [hval]
      exact ⟨noAsciiControl_sanitize v0 _,
        jsLength_sanitize_le v0 MAX_HEADER_VALUE_LENGTH (by decide)⟩
  · intro hs h kv hkv
    obtain ⟨_, hm⟩ := buildHeadersGo_ok_props custom (baseHeaders apiToken) hs h
    rcases hm kv hkv with hin | ⟨v0, hv0, hval, _⟩
    · exact Or.inl hin
    · exact Or.inr ⟨v0, hv0, hval⟩

/-- C10 (witness): the theorem applied to token `t` and the caller header
`X-Trace: "  hello  "`: the emitted value is the sanitised `hello`, which is
control-free and within the length bound. -/
theorem buildHeaders_value_hygiene_witness :
    noAsciiControl ("hello") = true ∧
    jsLength ("hello") ≤ MAX_HEADER_VALUE_LENGTH := by
  have h := (buildHeaders_value_hygiene ("t") customDemoHeaders).2.1 demoHeaderResult
    (by rfl) (("X-Trace"), ("hello")) (by decide) (by decide)
  exact h

/-! ## C5 — SSRF hostname blocking -/

lemma data_append_ne_nil_left (p q : String) (hp : p.data ≠ []) :
    (p ++ q).data ≠ [] := by
  rw [String.data_append]
  intro hc
  exact hp (List.append_eq_nil.mp hc).1

lemma validateHostname_invalid_of_flag (h fieldName : String) (hne : h ≠ "")
    (hflag : isPrivateNetwork (jsToLower h) = true ∨ isLoopback (jsToLower h) = true ∨
      isMetadataService (jsToLower h) = true) :
    (validateHostname h fieldName false).isValid = false := by
  unfold validateHostname
  rw [if_neg (by simp [hne])]
  rcases hflag with hp | hl2 | hm2
  · simp [hp]
  · simp [hl2]
  · simp [hm2]

lemma validateWebhookUrl_invalid_of_blocked (parse : String → Option ParsedUrl)
    (url : String) (pu : ParsedUrl) (options : WebhookUrlOptions)
    (hne : url ≠ "") (hpu : parse url = some pu)
    (hblocked : isBlockedHostname pu.hostname = true) :
    (validateWebhookUrl parse url options).isValid = false := by
  unfold validateWebhookUrl
  rw [if_neg (by simp [hne]), hpu]
  simp [hblocked]

/-- C5: for every hostname in the blocked SSRF classes — the loopback names
`localhost`, `127.0.0.1`, `::1`, `0.0.0.0`, the cloud metadata address
`169.254.169.254`, and the RFC1918 prefixes `10.`, `172.16.`-`172.31.`,
`192.168.` — `UrlValidator.validateHostname` returns an invalid outcome
(with private networks not allowed, its default), and
`InputValidator.validateWebhookUrl` returns an invalid outcome for every URL
parsing to that hostname, regardless of the scheme of the URL and of the
`allowHttp` option. -/
theorem blocked_ssrf_hostnames_rejected (h : String) (hb : blockedSsrfHostname h) :
    (∀ fieldName, (validateHostname h fieldName false).isValid = false) ∧
    (∀ (parse : String → Option ParsedUrl) (url : String) (pu : ParsedUrl)
        (options : WebhookUrlOptions), url ≠ "" → parse url = some pu →
      pu.hostname = h → (validateWebhookUrl parse url options).isValid = false) := by
  have main : h ≠ "" ∧
      (isPrivateNetwork (jsToLower h) = true ∨ isLoopback (jsToLower h) = true ∨
        isMetadataService (jsToLower h) = true) ∧
      isBlockedHostname h = true := by
    rcases hb with rfl | rfl | rfl | rfl | rfl | ⟨rest, rfl⟩ |
      ⟨second, rest, hmem, rfl⟩ | ⟨rest, rfl⟩
    · exact ⟨by decide, Or.inr (Or.inl (by decide)), by decide⟩
    · exact ⟨by decide, Or.inr (Or.inl (by decide)), by decide⟩
    · exact ⟨by decide, Or.inr (Or.inl (by decide)), by decide⟩
    · exact ⟨by decide, Or.inr (Or.inl (by decide)), by decide⟩
    · exact ⟨by decide, Or.inr (Or.inr (by decide)), by decide⟩
    · refine ⟨string_append_ne_empty ("10.") rest (by decide), Or.inl ?_, ?_⟩
      · exact isPrivateNetwork_lower_append ("10.") rest (by decide) (by decide)
      · unfold isBlockedHostname
        rw [Bool.or_eq_true]
        exact Or.inr (isPrivateNetwork_lower_append ("10.") rest (by decide) (by decide))
    · have hpriv : isPrivateNetwork (jsToLower (("172." ++ second ++ ".") ++ rest)) = true := by
        fin_cases hmem <;>
          exact isPrivateNetwork_lower_append _ rest (by decide) (by decide)
      refine ⟨string_append_ne_empty ("172." ++ second ++ ".") rest
        (data_append_ne_nil_left ("172.") (second ++ ".") (by decide)), Or.inl hpriv, ?_⟩
      unfold isBlockedHostname
      rw [Bool.or_eq_true]
      exact Or.inr hpriv
    · refine ⟨string_append_ne_empty ("192.168.") rest (by decide), Or.inl ?_, ?_⟩
      · exact isPrivateNetwork_lower_append ("192.168.") rest (by decide) (by decide)
      · unfold isBlockedHostname
        rw [Bool.or_eq_true]
        exact Or.inr (isPrivateNetwork_lower_append ("192.168.") rest (by decide) (by decide))
  obtain ⟨hne, hflag, hblocked⟩ := main
  constructor
  · intro fieldName
    exact validateHostname_invalid_of_flag h fieldName hne hflag
  · intro parse url pu options hu hpu hh
    refine validateWebhookUrl_invalid_of_blocked parse url pu options hu hpu ?_
    rw [hh]
    exact hblocked

/-- C5 (witness): the metadata address `169.254.169.254` is rejected by
`validateHostname`, and a parseable https URL on that hostname is rejected
by `validateWebhookUrl`. -/
theorem blocked_ssrf_witness :
    (validateHostname ("169.254.169.254") ("Webhook URL hostname") false).isValid = false ∧
    (validateWebhookUrl metadataUrlParse ("https://169.254.169.254/hook")
      {}).isValid = false := by
  obtain ⟨h1, h2⟩ := blocked_ssrf_hostnames_rejected ("169.254.169.254")
    (Or.inr (Or.inr (Or.inr (Or.inr (Or.inl rfl)))))
  exact ⟨h1 ("Webhook URL hostname"),
    h2 metadataUrlParse ("https://169.254.169.254/hook")
      ⟨("https:"), ("169.254.169.254"), ("/hook"), ("")⟩ {} (by decide) (by rfl) rfl⟩

/-! ## C9 — constructor validation -/

lemma validateTimeout_valid_iff (t : Int) :
    (validateTimeout t).isValid = true ↔
      MIN_REQUEST_TIMEOUT ≤ t ∧ t ≤ MAX_REQUEST_TIMEOUT := by
  unfold validateTimeout
  by_cases h1 : t < MIN_REQUEST_TIMEOUT
  all_goals by_cases h2 : MAX_REQUEST_TIMEOUT < t
  all_goals simp [h1, h2]
  all_goals omega

/-- C9 (counterexample): as stated the claim is false on this code: the
constructor does not validate `maxResponseSize` (nor the retry fields), so a
configuration with `maxResponseSize = 0` — violating the positive-integer
constraint of the data model — constructs successfully, producing an
instance in a state the claim says cannot exist. -/
theorem constructor_accepts_zero_maxResponseSize :
    constructHttpClient demoUrlParse demoDecode false cfgZeroMaxSize =
      .ok stateZeroMaxSize ∧ stateZeroMaxSize.maxResponseSize = 0 :=
  ⟨rfl, rfl⟩

/-- C9 (amended): the constructor validates the API token (absent or empty
fails), the defaulted base URL (via `UrlValidator.validateUrl`) and the
defaulted timeout, and clamps `maxDelay` to 30000 ms, so every constructed
instance has a non-empty token, a base URL passing URL validation, a timeout
in [1000, 60000] and `maxDelay ≤ 30000`; `maxResponseSize` and the remaining
retry fields are taken as provided, without validation. -/
theorem constructor_validates_token_url_timeout (parse : String → Option ParsedUrl)
    (decode : String → Option String) (isDev : Bool) (config : MeruClientConfig)
    (st : HttpClientState)
    (h : constructHttpClient parse decode isDev config = .ok st) :
    st.apiToken ≠ "" ∧
    (validateUrl parse decode st.baseUrl ("Base URL")
      { allowHttp := isDev }).isValid = true ∧
    MIN_REQUEST_TIMEOUT ≤ st.timeout ∧ st.timeout ≤ MAX_REQUEST_TIMEOUT ∧
    st.retryConfig.maxDelay ≤ RATE_LIMIT_MAX_DELAY := by
  simp only [constructHttpClient] at h
  split at h
  · simp at h
  · rename_i tok htok
    split at h
    · simp at h
    · rename_i h1
      split at h
      · simp at h
      · rename_i h2
        split at h
        · simp at h
        · rename_i h3
          injection h with h4
          subst h4
          refine ⟨by simpa using h1, by simpa using h2, ?_, ?_, min_le_right _ _⟩
          · exact ((validateTimeout_valid_iff _).mp (by simpa using h3)).1
          · exact ((validateTimeout_valid_iff _).mp (by simpa using h3)).2

/-- C9 (witness): the amended theorem applied to the concrete configuration
`cfgZeroMaxSize`, whose constructed state satisfies all the validated
constraints (while its unvalidated `maxResponseSize` is 0). -/
theorem constructor_validates_witness :
    stateZeroMaxSize.apiToken ≠ "" ∧
    (validateUrl demoUrlParse demoDecode stateZeroMaxSize.baseUrl ("Base URL")
      { allowHttp := false }).isValid = true ∧
    MIN_REQUEST_TIMEOUT ≤ stateZeroMaxSize.timeout ∧
    stateZeroMaxSize.timeout ≤ MAX_REQUEST_TIMEOUT ∧
    stateZeroMaxSize.retryConfig.maxDelay ≤ RATE_LIMIT_MAX_DELAY :=
  constructor_validates_token_url_timeout demoUrlParse demoDecode false cfgZeroMaxSize
    stateZeroMaxSize (by rfl)

end Meru
